import Mathlib

/-!
Verification of the PIMAP system against its specification.

This file gives a shallow embedding, in Lean 4, of the parts of the PIMAP
repository that the specification claims talk about:

* the datum codec in pimap/pimaputilities.py (create_pimap_sample,
  create_pimap_metric, the regex based field extractors get_sample_type,
  get_metric_type, get_type, get_patient_id, get_device_id, get_sample,
  get_metric, get_data, get_timestamp, and validate_datum);
* the sort step of PimapSenseUdp.sense and PimapSenseTcp.sense
  (pimap/pimapsenseudp.py, pimap/pimapsensetcp.py);
* the per batch classification worker of PimapSenseTcp
  (_create_pimap_data_and_add_to_queue) and the framing loop of
  _sense_worker;
* the input validation and filtering of
  PimapAnalyzeObjectiveMobility.analyze, its plane fit computation, its
  adaptive aggregation limit, and its samples_in telemetry counter
  (pimap/pimapanalyzeobjectivemobility.py);
* the adaptive num_messages control of PimapStoreKafka.retrieve
  (pimap/pimapstorekafka.py).

Python strings are modelled as List Char.  A Python function that can raise
is modelled as a function into Option or Except.  Python floats that only
feed comparisons or exact arithmetic are modelled as rationals.
-/

namespace Pimap

/-- Python strings are modelled as lists of characters. -/
abbrev PStr := List Char

/-- Conversion from Lean string literals, used to write concrete inputs. -/
def PS (s : String) : PStr := s.toList

/-! ### Regex keys used by pimaputilities.py

Each extractor in pimaputilities.py uses a regular expression of the form
key followed by a group ([^;]+) followed by a semicolon, where the key part
accepts an underscore or a hyphen spelling (for the type and id fields).
The keys below are the literal key texts of those regexes. -/

def kSampleTypeU : PStr := PS "sample_type:"

def kSampleTypeH : PStr := PS "sample-type:"

def kMetricTypeU : PStr := PS "metric_type:"

def kMetricTypeH : PStr := PS "metric-type:"

def kPatientU : PStr := PS "patient_id:"

def kPatientH : PStr := PS "patient-id:"

def kDeviceU : PStr := PS "device_id:"

def kDeviceH : PStr := PS "device-id:"

def kSample : PStr := PS "sample:"

def kMetric : PStr := PS "metric:"

def kTimestamp : PStr := PS "timestamp:"

/-- The two character record terminator of the wire format. -/
def term : PStr := [';', ';']

/-- One attempted regex match of the pattern key([^;]+); at the start of s:
the key must literally be a prefix of s, then the greedy group takes the
maximal run of non semicolon characters, and the character after the group
must be a semicolon (this models the trailing ; of each extractor regex). -/
def matchKeyAt (key s : PStr) : Option PStr :=
  if key <+: s then
    let rest := s.drop key.length
    let g := rest.takeWhile (fun c => c != ';')
    if g = [] then none
    else if rest.dropWhile (fun c => c != ';') = [] then none
    else some g
  else none

/-- Try each alternative key of a character class at the current position.
The alternatives (underscore/hyphen spellings) have the same length and
differ in one character, so at most one of them can match. -/
def tryKeys : List PStr → PStr → Option PStr
  | [], _ => none
  | k :: ks, s =>
    match matchKeyAt k s with
    | some g => some g
    | none => tryKeys ks s

/-- re.search of the pattern key([^;]+); over a whole string: try every
start position from the left and return the group of the first full match.
This models the leftmost match semantics of Python re.search. -/
def searchExtract (keys : List PStr) : PStr → Option PStr
  | [] => none
  | c :: rest =>
    match tryKeys keys (c :: rest) with
    | some g => some g
    | none => searchExtract keys rest

/-- pimaputilities.get_sample_type: re.search("sample[-_]type:([^;]+);").
none models the ValueError raise. -/
def get_sample_type (s : PStr) : Option PStr :=
  searchExtract [kSampleTypeU, kSampleTypeH] s

/-- pimaputilities.get_metric_type: re.search("metric[-_]type:([^;]+);"). -/
def get_metric_type (s : PStr) : Option PStr :=
  searchExtract [kMetricTypeU, kMetricTypeH] s

/-- pimaputilities.get_type: probe re.search("sample[-_]type:") first; on a
hit commit to get_sample_type (whose failure propagates); otherwise probe
the metric spelling; otherwise raise. -/
def get_type (s : PStr) : Option PStr :=
  if kSampleTypeU <:+: s ∨ kSampleTypeH <:+: s then get_sample_type s
  else if kMetricTypeU <:+: s ∨ kMetricTypeH <:+: s then get_metric_type s
  else none

/-- pimaputilities.get_patient_id: re.search("patient[-_]id:([^;]+);"). -/
def get_patient_id (s : PStr) : Option PStr :=
  searchExtract [kPatientU, kPatientH] s

/-- pimaputilities.get_device_id: re.search("device[-_]id:([^;]+);"). -/
def get_device_id (s : PStr) : Option PStr :=
  searchExtract [kDeviceU, kDeviceH] s

/-- pimaputilities.get_sample: re.search("sample:([^;]+);"). -/
def get_sample (s : PStr) : Option PStr :=
  searchExtract [kSample] s

/-- pimaputilities.get_metric: re.search("metric:([^;]+);"). -/
def get_metric (s : PStr) : Option PStr :=
  searchExtract [kMetric] s

/-- pimaputilities.get_data: probe re.search("sample:") first; on a hit
commit to get_sample; otherwise probe "metric:"; otherwise raise. -/
def get_data (s : PStr) : Option PStr :=
  if kSample <:+: s then get_sample s
  else if kMetric <:+: s then get_metric s
  else none

/-- pimaputilities.get_timestamp: re.search("timestamp:([^;]+);"). -/
def get_timestamp (s : PStr) : Option PStr :=
  searchExtract [kTimestamp] s

/-- pimaputilities.validate_datum: true iff all five extractors succeed. -/
def validate_datum (s : PStr) : Bool :=
  (get_type s).isSome && (get_patient_id s).isSome && (get_device_id s).isSome
    && (get_data s).isSome && (get_timestamp s).isSome

/-- Abstraction of the Python float(tstamp) conversion check used by
create_pimap_sample / create_pimap_metric.  We only rely on the properties
that matter for the wire format: every string accepted by Python float() is
non empty and contains neither of the delimiter characters.  (A string with
a semicolon or colon is never float convertible, and float("") fails.) -/
def floatConvertible (ts : PStr) : Bool :=
  !ts.isEmpty && ts.all (fun c => c != ';' && c != ':')

/-- The reserved words checked against a sample payload by
create_pimap_sample (sample_type is omitted in the source because "sample"
is a substring of it). -/
def specialKeysSample : List PStr :=
  [PS "patient_id", PS "device_id", PS "sample", PS "timestamp", [';']]

/-- The reserved words checked against a metric payload by
create_pimap_metric. -/
def specialKeysMetric : List PStr :=
  [PS "patient_id", PS "device_id", PS "metric", PS "timestamp", [';']]

/-- The exact string concatenation returned by create_pimap_sample:
"sample_type:" + stype + ";patient_id:" + pid + ";device_id:" + did +
";sample:" + s + ";timestamp:" + tstamp + ";;". -/
def sampleEnc (stype pid did s tstamp : PStr) : PStr :=
  kSampleTypeU ++ stype ++ [';'] ++ kPatientU ++ pid ++ [';'] ++
    kDeviceU ++ did ++ [';'] ++ kSample ++ s ++ [';'] ++ kTimestamp ++
    tstamp ++ term

/-- pimaputilities.create_pimap_sample with an explicit timestamp string
(the source stringifies its arguments and, when no timestamp is given,
uses str(time.time()); the wall clock value is passed in by the caller
here).  none models the ValueError raises; the returned string is the
exact concatenation built by the source. -/
def create_pimap_sample (stype pid did s tstamp : PStr) : Option PStr :=
  if ':' ∈ stype ∨ ';' ∈ stype then none
  else if ':' ∈ pid ∨ ';' ∈ pid then none
  else if ':' ∈ did ∨ ';' ∈ did then none
  else if specialKeysSample.any (fun k => decide (k <:+: s)) then none
  else if !floatConvertible tstamp then none
  else some (sampleEnc stype pid did s tstamp)

/-- The exact string concatenation returned by create_pimap_metric:
"metric_type:" + mtype + ";patient_id:" + pid + ";device_id:" + did +
";metric:" + m + ";timestamp:" + ts + ";;". -/
def metricEnc (mtype pid did m ts : PStr) : PStr :=
  kMetricTypeU ++ mtype ++ [';'] ++ kPatientU ++ pid ++ [';'] ++
    kDeviceU ++ did ++ [';'] ++ kMetric ++ m ++ [';'] ++ kTimestamp ++
    ts ++ term

/-- pimaputilities.create_pimap_metric: the patient id, device id and
timestamp are extracted from the source datum (their ValueError raises
propagate), the metric payload is checked against the reserved words, and
the extracted timestamp is checked to be float convertible. -/
def create_pimap_metric (mtype pimap_datum m : PStr) : Option PStr :=
  if ':' ∈ mtype ∨ ';' ∈ mtype then none
  else
    match get_patient_id pimap_datum, get_device_id pimap_datum with
    | some pid, some did =>
      if specialKeysMetric.any (fun k => decide (k <:+: m)) then none
      else
        match get_timestamp pimap_datum with
        | some ts =>
          if !floatConvertible ts then none
          else some (metricEnc mtype pid did m ts)
        | none => none
    | _, _ => none

end Pimap

namespace Pimap

-- Sanity checks of the codec model against the behaviour of the source
-- (mirroring tests/testpimaputilities.py).

example :
    create_pimap_sample (PS "test_sample") (PS "1") (PS "2") (PS "d") (PS "1.5")
      = some (PS "sample_type:test_sample;patient_id:1;device_id:2;sample:d;timestamp:1.5;;") := by
  decide

example :
    validate_datum (PS "sample_type:test_sample;patient_id:1;device_id:2;sample:d;timestamp:1.5;;")
      = true := by decide

example : validate_datum (PS "invalid pimap sample") = false := by decide

example : validate_datum (PS "sample_type:test;patient_id:1") = false := by decide

example :
    get_type (PS "metric_type:m;patient_id:1;device_id:2;metric:x;timestamp:1.5;;")
      = some (PS "m") := by decide

example :
    create_pimap_sample (PS "a;b") (PS "1") (PS "2") (PS "d") (PS "1.5") = none := by
  decide

example :
    create_pimap_sample (PS "t") (PS "1") (PS "2") (PS "xtimestampx") (PS "1.5") = none := by
  decide

/-! ### Generic lemmas about occurrences of keys in concatenations

All search keys of the codec are non empty, contain no semicolon, and end
with a colon.  The lemmas below let us locate or exclude occurrences of
such keys inside the concatenations produced by the encoders. -/

/-- A prefix of an append either stays inside the left part or swallows it
whole. -/
theorem pfxAppendSplit {k xs ys : PStr} (h : k <+: xs ++ ys) :
    k <+: xs ∨ ∃ k2, k = xs ++ k2 ∧ k2 <+: ys := by
  induction xs generalizing k with
  | nil => exact Or.inr ⟨k, rfl, h⟩
  | cons a xs ih =>
    cases k with
    | nil => exact Or.inl List.nil_prefix
    | cons b k =>
      rw [List.cons_append, List.cons_prefix_cons] at h
      obtain ⟨rfl, h⟩ := h
      rcases ih h with h1 | ⟨k2, rfl, h2⟩
      · exact Or.inl (List.cons_prefix_cons.2 ⟨rfl, h1⟩)
      · exact Or.inr ⟨k2, rfl, h2⟩

/-- An occurrence inside an append lies in the left part, lies in the right
part, or crosses the boundary; in the crossing case the occurrence starts
with a non empty suffix of the left part. -/
theorem infAppendSplit {k xs ys : PStr} (h : k <:+: xs ++ ys) :
    k <:+: xs ∨ k <:+: ys ∨
      ∃ k1 k2, k = k1 ++ k2 ∧ k1 ≠ [] ∧ k1 <:+ xs ∧ k2 <+: ys := by
  induction xs generalizing k with
  | nil => exact Or.inr (Or.inl h)
  | cons a xs ih =>
    rw [List.cons_append, List.infix_cons_iff] at h
    rcases h with h | h
    · rw [show a :: (xs ++ ys) = (a :: xs) ++ ys from rfl] at h
      rcases pfxAppendSplit h with h1 | ⟨k2, rfl, h2⟩
      · exact Or.inl h1.isInfix
      · exact Or.inr (Or.inr ⟨a :: xs, k2, rfl, List.cons_ne_nil a xs,
          List.suffix_refl _, h2⟩)
    · rcases ih h with h1 | h1 | ⟨k1, k2, rfl, hne, hsuf, hpre⟩
      · exact Or.inl (h1.trans (List.suffix_cons a xs).isInfix)
      · exact Or.inr (Or.inl h1)
      · exact Or.inr (Or.inr ⟨k1, k2, rfl, hne, hsuf.trans (List.suffix_cons a xs),
          hpre⟩)

/-- Splitting an occurrence at a semicolon: a key that holds no semicolon
and occurs in xs ++ ; :: ys occurs in xs or in ys. -/
theorem infSemiSplit {k xs ys : PStr} (hsemi : ';' ∉ k)
    (h : k <:+: xs ++ ';' :: ys) : k <:+: xs ∨ k <:+: ys := by
  rcases infAppendSplit h with h1 | h1 | ⟨k1, k2, rfl, hne, hsuf, hpre⟩
  · exact Or.inl h1
  · rw [List.infix_cons_iff] at h1
    rcases h1 with h1 | h1
    · cases k with
      | nil => exact Or.inr List.nil_infix
      | cons b k =>
        rw [List.cons_prefix_cons] at h1
        exact absurd (h1.1 ▸ List.mem_cons_self b k) hsemi
    · exact Or.inr h1
  · cases k2 with
    | nil => exact Or.inl (by simpa using hsuf.isInfix)
    | cons b k2 =>
      rw [List.cons_prefix_cons] at hpre
      exact absurd (List.mem_append_right k1 (hpre.1 ▸ List.mem_cons_self b k2))
        hsemi

/-- A key that ends with a colon and occurs in xs ++ v, where v is colon
free, occurs in xs alone. -/
theorem infLastColon {k xs v : PStr} (hlast : k.getLast? = some ':')
    (hv : ':' ∉ v) (h : k <:+: xs ++ v) : k <:+: xs := by
  rcases infAppendSplit h with h1 | h1 | ⟨k1, k2, heq, hne, hsuf, hpre⟩
  · exact h1
  · exact absurd (h1.subset (List.mem_of_getLast?_eq_some hlast)) hv
  · cases k2 with
    | nil => simpa [heq] using hsuf.isInfix
    | cons b k2 =>
      have hk2 : (b :: k2).getLast? = some ':' := by
        rw [heq, List.getLast?_append_of_ne_nil k1 (List.cons_ne_nil b k2)] at hlast
        exact hlast
      exact absurd (hpre.subset (List.mem_of_getLast?_eq_some hk2)) hv

/-- A key whose text contains a colon cannot occur in a colon free string. -/
theorem notInfOfColonFree {k v : PStr} (hk : ':' ∈ k) (hv : ':' ∉ v) :
    ¬ k <:+: v := fun h => hv (h.subset hk)

/-- A key that ends with a colon does not occur in lit ++ v when v is colon
free and the key does not occur in lit. -/
theorem notInfLitVal {k lit v : PStr} (hlast : k.getLast? = some ':')
    (hv : ':' ∉ v) (hnl : ¬ k <:+: lit) : ¬ k <:+: lit ++ v :=
  fun h => hnl (infLastColon hlast hv h)

/-- A key does not occur in lit ++ v when: a banned word that is a prefix of
the key does not occur in v, the key does not occur in lit, and no non
empty suffix of lit is a prefix of the key (so no occurrence can cross the
boundary). -/
theorem notInfPayloadRun (sub : PStr) {k lit v : PStr} (hsubk : sub <+: k)
    (hv : ¬ sub <:+: v) (hlit : ¬ k <:+: lit)
    (hcross : ∀ x ∈ lit.tails, x <+: k → x = []) : ¬ k <:+: lit ++ v := by
  intro h
  rcases infAppendSplit h with h1 | h1 | ⟨k1, k2, heq, hne, hsuf, hpre⟩
  · exact hlit h1
  · exact hv (hsubk.isInfix.trans h1)
  · exact hne (hcross k1 ((List.mem_tails _ _).2 hsuf) ⟨k2, heq.symm⟩)

/-! ### Stepping searchExtract through the encoded record -/

theorem matchKeyAtNone {k s : PStr} (h : ¬ k <+: s) : matchKeyAt k s = none := by
  unfold matchKeyAt
  rw [if_neg h]

theorem tryKeysNone {keys : List PStr} {s : PStr}
    (h : ∀ k ∈ keys, matchKeyAt k s = none) : tryKeys keys s = none := by
  induction keys with
  | nil => rfl
  | cons k ks ih =>
    unfold tryKeys
    rw [h k (List.mem_cons_self k ks)]
    exact ih fun k hk => h k (List.mem_cons_of_mem _ hk)

theorem searchExtractCons (keys : List PStr) (c : Char) (s : PStr) :
    searchExtract keys (c :: s) =
      match tryKeys keys (c :: s) with
      | some g => some g
      | none => searchExtract keys s := rfl

theorem searchExtractConsNone {keys : List PStr} {c : Char} {s : PStr}
    (h : tryKeys keys (c :: s) = none) :
    searchExtract keys (c :: s) = searchExtract keys s := by
  rw [searchExtractCons, h]

theorem searchExtractConsSome {keys : List PStr} {c : Char} {s g : PStr}
    (h : tryKeys keys (c :: s) = some g) :
    searchExtract keys (c :: s) = some g := by
  rw [searchExtractCons, h]

/-- Skip a whole segment in which no key occurs: the segment is followed by
a semicolon, the keys hold no semicolon, so no match can start inside the
segment. -/
theorem searchExtractSkip {keys : List PStr} (seg rest : PStr)
    (h : ∀ k ∈ keys, ';' ∉ k ∧ ¬ k <:+: seg) :
    searchExtract keys (seg ++ ';' :: rest) = searchExtract keys (';' :: rest) := by
  induction seg with
  | nil => rfl
  | cons a seg ih =>
    rw [List.cons_append]
    rw [searchExtractConsNone]
    · exact ih fun k hk => ⟨(h k hk).1,
        fun hi => (h k hk).2 (hi.trans (List.suffix_cons a seg).isInfix)⟩
    · apply tryKeysNone
      intro k hk
      apply matchKeyAtNone
      intro hpfx
      rw [← List.cons_append] at hpfx
      rcases pfxAppendSplit hpfx with h1 | ⟨k2, hek, h2⟩
      · exact (h k hk).2 h1.isInfix
      · cases k2 with
        | nil => exact (h k hk).2 (by simp [hek])
        | cons b k2 =>
          rw [List.cons_prefix_cons] at h2
          exact (h k hk).1
            (hek ▸ List.mem_append_right _ (h2.1 ▸ List.mem_cons_self b k2))

/-- Step over a single character that no (non empty) key starts with. -/
theorem searchExtractConsNe {keys : List PStr} (c : Char) (s : PStr)
    (h : ∀ k ∈ keys, k ≠ [] ∧ k.head? ≠ some c) :
    searchExtract keys (c :: s) = searchExtract keys s := by
  apply searchExtractConsNone
  apply tryKeysNone
  intro k hk
  apply matchKeyAtNone
  intro hpfx
  cases k with
  | nil => exact (h [] hk).1 rfl
  | cons b k =>
    rw [List.cons_prefix_cons] at hpfx
    exact (h (b :: k) hk).2 (by rw [List.head?_cons, hpfx.1])

theorem takeWhileAppendSemi (v r : PStr) (hv : ';' ∉ v) :
    (v ++ ';' :: r).takeWhile (fun c => c != ';') = v := by
  induction v with
  | nil => simp
  | cons a v ih =>
    have ha : a ≠ ';' := fun hh => hv (hh ▸ List.mem_cons_self a v)
    have ihv := ih fun hm => hv (List.mem_cons_of_mem a hm)
    simp [List.takeWhile_cons, ha, ihv]

theorem dropWhileAppendSemi (v r : PStr) (hv : ';' ∉ v) :
    (v ++ ';' :: r).dropWhile (fun c => c != ';') = ';' :: r := by
  induction v with
  | nil => simp
  | cons a v ih =>
    have ha : a ≠ ';' := fun hh => hv (hh ▸ List.mem_cons_self a v)
    have ihv := ih fun hm => hv (List.mem_cons_of_mem a hm)
    simp [List.dropWhile_cons, ha, ihv]

/-- A full regex match at the start of key ++ value ++ ; ++ rest extracts
exactly the value. -/
theorem matchKeyAtHit (k v r : PStr) (hne : v ≠ []) (hv : ';' ∉ v) :
    matchKeyAt k (k ++ (v ++ ';' :: r)) = some v := by
  unfold matchKeyAt
  rw [if_pos (List.prefix_append k _)]
  simp only [List.drop_left]
  rw [takeWhileAppendSemi v r hv, dropWhileAppendSemi v r hv]
  simp [hne]

/-- When the first key of the alternation matches at the current position,
the search returns its group. -/
theorem searchExtractHit (k : PStr) (ks : List PStr) (v r : PStr)
    (hk : k ≠ []) (hne : v ≠ []) (hv : ';' ∉ v) :
    searchExtract (k :: ks) (k ++ (v ++ ';' :: r)) = some v := by
  cases k with
  | nil => exact absurd rfl hk
  | cons c k =>
    rw [List.cons_append]
    apply searchExtractConsSome
    unfold tryKeys
    rw [← List.cons_append, matchKeyAtHit _ v r hne hv]

/-- Skip a segment for a two key alternation. -/
theorem skipTwo {k1 k2 : PStr} (seg rest : PStr)
    (h1 : ';' ∉ k1) (h2 : ';' ∉ k2) (g1 : ¬ k1 <:+: seg) (g2 : ¬ k2 <:+: seg) :
    searchExtract [k1, k2] (seg ++ ';' :: rest) =
      searchExtract [k1, k2] (';' :: rest) := by
  apply searchExtractSkip
  intro k hk
  rcases List.mem_cons.1 hk with rfl | hk
  · exact ⟨h1, g1⟩
  rcases List.mem_cons.1 hk with rfl | hk
  · exact ⟨h2, g2⟩
  · cases hk

/-- Skip a segment for a single key pattern. -/
theorem skipOne {k1 : PStr} (seg rest : PStr)
    (h1 : ';' ∉ k1) (g1 : ¬ k1 <:+: seg) :
    searchExtract [k1] (seg ++ ';' :: rest) =
      searchExtract [k1] (';' :: rest) := by
  apply searchExtractSkip
  intro k hk
  rcases List.mem_cons.1 hk with rfl | hk
  · exact ⟨h1, g1⟩
  · cases hk

/-- The right associated normal form of the sample wire record: five runs
separated by semicolons and closed by the final semicolon of the ";;"
terminator. -/
theorem sampleEncNF (t p d s ts : PStr) :
    sampleEnc t p d s ts =
      (kSampleTypeU ++ t) ++ ';' :: ((kPatientU ++ p) ++ ';' ::
        ((kDeviceU ++ d) ++ ';' :: ((kSample ++ s) ++ ';' ::
          ((kTimestamp ++ ts) ++ ';' :: [';'])))) := by
  simp [sampleEnc, term, List.append_assoc]

/-- The right associated normal form of the metric wire record. -/
theorem metricEncNF (mt p d m ts : PStr) :
    metricEnc mt p d m ts =
      (kMetricTypeU ++ mt) ++ ';' :: ((kPatientU ++ p) ++ ';' ::
        ((kDeviceU ++ d) ++ ';' :: ((kMetric ++ m) ++ ';' ::
          ((kTimestamp ++ ts) ++ ';' :: [';'])))) := by
  simp [metricEnc, term, List.append_assoc]

/-- A non empty semicolon free key does not occur anywhere in a five run
record when it occurs in none of the runs. -/
theorem notInfEnc5 {k r1 r2 r3 r4 r5 : PStr} (hne : k ≠ []) (hsemi : ';' ∉ k)
    (h1 : ¬ k <:+: r1) (h2 : ¬ k <:+: r2) (h3 : ¬ k <:+: r3)
    (h4 : ¬ k <:+: r4) (h5 : ¬ k <:+: r5) :
    ¬ k <:+: r1 ++ ';' :: (r2 ++ ';' :: (r3 ++ ';' ::
      (r4 ++ ';' :: (r5 ++ ';' :: [';'])))) := by
  intro h
  rcases infSemiSplit hsemi h with h | h
  · exact h1 h
  rcases infSemiSplit hsemi h with h | h
  · exact h2 h
  rcases infSemiSplit hsemi h with h | h
  · exact h3 h
  rcases infSemiSplit hsemi h with h | h
  · exact h4 h
  rcases infSemiSplit hsemi h with h | h
  · exact h5 h
  · cases k with
    | nil => exact hne rfl
    | cons c k =>
      have hc := h.subset (List.mem_cons_self c k)
      rw [List.mem_singleton] at hc
      exact hsemi (hc ▸ List.mem_cons_self c k)

/-- Extraction from an encoded sample record: each of the five extractors
recovers exactly the corresponding field, provided each field is non empty,
the type and id fields hold no delimiter characters, the payload holds no
reserved word and no semicolon, and the timestamp string is non empty and
delimiter free. -/
theorem sampleExtractors (t p d s ts : PStr)
    (ht1 : t ≠ []) (ht2 : ':' ∉ t) (ht3 : ';' ∉ t)
    (hp1 : p ≠ []) (hp2 : ':' ∉ p) (hp3 : ';' ∉ p)
    (hd1 : d ≠ []) (hd2 : ':' ∉ d) (hd3 : ';' ∉ d)
    (hs1 : s ≠ []) (hsT : ¬ PS "timestamp" <:+: s) (hs3 : ';' ∉ s)
    (hts1 : ts ≠ []) (hts2 : ':' ∉ ts) (hts3 : ';' ∉ ts) :
    get_type (sampleEnc t p d s ts) = some t ∧
    get_patient_id (sampleEnc t p d s ts) = some p ∧
    get_device_id (sampleEnc t p d s ts) = some d ∧
    get_data (sampleEnc t p d s ts) = some s ∧
    get_timestamp (sampleEnc t p d s ts) = some ts := by
  have hprobe : kSampleTypeU <:+: sampleEnc t p d s ts := by
    rw [sampleEncNF, List.append_assoc]
    exact (List.prefix_append _ _).isInfix
  have hstype : get_sample_type (sampleEnc t p d s ts) = some t := by
    rw [sampleEncNF, List.append_assoc]
    exact searchExtractHit _ _ _ _ (by decide) ht1 ht3
  refine ⟨?_, ?_, ?_, ?_, ?_⟩
  · rw [get_type, if_pos (Or.inl hprobe)]
    exact hstype
  · rw [get_patient_id, sampleEncNF]
    rw [skipTwo _ _ (by decide) (by decide)
        (notInfLitVal (by decide) ht2 (by decide))
        (notInfLitVal (by decide) ht2 (by decide))]
    rw [searchExtractConsNe _ _ (by decide)]
    rw [List.append_assoc]
    exact searchExtractHit _ _ _ _ (by decide) hp1 hp3
  · rw [get_device_id, sampleEncNF]
    rw [skipTwo _ _ (by decide) (by decide)
        (notInfLitVal (by decide) ht2 (by decide))
        (notInfLitVal (by decide) ht2 (by decide))]
    rw [searchExtractConsNe _ _ (by decide)]
    rw [skipTwo _ _ (by decide) (by decide)
        (notInfLitVal (by decide) hp2 (by decide))
        (notInfLitVal (by decide) hp2 (by decide))]
    rw [searchExtractConsNe _ _ (by decide)]
    rw [List.append_assoc]
    exact searchExtractHit _ _ _ _ (by decide) hd1 hd3
  · have hsampleProbe : kSample <:+: sampleEnc t p d s ts := by
      refine ⟨(kSampleTypeU ++ t) ++ ';' :: ((kPatientU ++ p) ++ ';' ::
        ((kDeviceU ++ d) ++ [';'])), s ++ ';' :: ((kTimestamp ++ ts) ++ ';' :: [';']), ?_⟩
      rw [sampleEncNF]
      simp [List.append_assoc]
    rw [get_data, if_pos hsampleProbe, get_sample, sampleEncNF]
    rw [skipOne _ _ (by decide) (notInfLitVal (by decide) ht2 (by decide))]
    rw [searchExtractConsNe _ _ (by decide)]
    rw [skipOne _ _ (by decide) (notInfLitVal (by decide) hp2 (by decide))]
    rw [searchExtractConsNe _ _ (by decide)]
    rw [skipOne _ _ (by decide) (notInfLitVal (by decide) hd2 (by decide))]
    rw [searchExtractConsNe _ _ (by decide)]
    rw [List.append_assoc]
    exact searchExtractHit _ _ _ _ (by decide) hs1 hs3
  · rw [get_timestamp, sampleEncNF]
    rw [skipOne _ _ (by decide) (notInfLitVal (by decide) ht2 (by decide))]
    rw [searchExtractConsNe _ _ (by decide)]
    rw [skipOne _ _ (by decide) (notInfLitVal (by decide) hp2 (by decide))]
    rw [searchExtractConsNe _ _ (by decide)]
    rw [skipOne _ _ (by decide) (notInfLitVal (by decide) hd2 (by decide))]
    rw [searchExtractConsNe _ _ (by decide)]
    rw [skipOne _ _ (by decide)
        (notInfPayloadRun (PS "timestamp") (by decide) hsT (by decide)
          (by decide))]
    rw [searchExtractConsNe _ _ (by decide)]
    rw [List.append_assoc]
    exact searchExtractHit _ _ _ _ (by decide) hts1 hts3

/-- Extraction from an encoded metric record.  Besides the reserved word
checks actually performed by create_pimap_metric, the payload must avoid
the three sample shaped keys "sample:", "sample_type:" and "sample-type:":
get_type and get_data probe the sample spelling first, so a metric payload
holding one of them derails the probe (see the counterexample below). -/
theorem metricExtractors (mt p d m ts : PStr)
    (hmt1 : mt ≠ []) (hmt2 : ':' ∉ mt) (hmt3 : ';' ∉ mt)
    (hp1 : p ≠ []) (hp2 : ':' ∉ p) (hp3 : ';' ∉ p)
    (hd1 : d ≠ []) (hd2 : ':' ∉ d) (hd3 : ';' ∉ d)
    (hm1 : m ≠ []) (hmT : ¬ PS "timestamp" <:+: m) (hm3 : ';' ∉ m)
    (hmS1 : ¬ kSample <:+: m) (hmS2 : ¬ kSampleTypeU <:+: m)
    (hmS3 : ¬ kSampleTypeH <:+: m)
    (hts1 : ts ≠ []) (hts2 : ':' ∉ ts) (hts3 : ';' ∉ ts) :
    get_type (metricEnc mt p d m ts) = some mt ∧
    get_patient_id (metricEnc mt p d m ts) = some p ∧
    get_device_id (metricEnc mt p d m ts) = some d ∧
    get_data (metricEnc mt p d m ts) = some m ∧
    get_timestamp (metricEnc mt p d m ts) = some ts := by
  have hnoSU : ¬ kSampleTypeU <:+: metricEnc mt p d m ts := by
    rw [metricEncNF]
    exact notInfEnc5 (by decide) (by decide)
      (notInfLitVal (by decide) hmt2 (by decide))
      (notInfLitVal (by decide) hp2 (by decide))
      (notInfLitVal (by decide) hd2 (by decide))
      (notInfPayloadRun kSampleTypeU (List.prefix_refl _) hmS2
        (by decide) (by decide))
      (notInfLitVal (by decide) hts2 (by decide))
  have hnoSH : ¬ kSampleTypeH <:+: metricEnc mt p d m ts := by
    rw [metricEncNF]
    exact notInfEnc5 (by decide) (by decide)
      (notInfLitVal (by decide) hmt2 (by decide))
      (notInfLitVal (by decide) hp2 (by decide))
      (notInfLitVal (by decide) hd2 (by decide))
      (notInfPayloadRun kSampleTypeH (List.prefix_refl _) hmS3
        (by decide) (by decide))
      (notInfLitVal (by decide) hts2 (by decide))
  have hnoSam : ¬ kSample <:+: metricEnc mt p d m ts := by
    rw [metricEncNF]
    exact notInfEnc5 (by decide) (by decide)
      (notInfLitVal (by decide) hmt2 (by decide))
      (notInfLitVal (by decide) hp2 (by decide))
      (notInfLitVal (by decide) hd2 (by decide))
      (notInfPayloadRun kSample (List.prefix_refl _) hmS1
        (by decide) (by decide))
      (notInfLitVal (by decide) hts2 (by decide))
  have hMprobe : kMetricTypeU <:+: metricEnc mt p d m ts := by
    rw [metricEncNF, List.append_assoc]
    exact (List.prefix_append _ _).isInfix
  have hmetricProbe : kMetric <:+: metricEnc mt p d m ts := by
    refine ⟨(kMetricTypeU ++ mt) ++ ';' :: ((kPatientU ++ p) ++ ';' ::
      ((kDeviceU ++ d) ++ [';'])), m ++ ';' :: ((kTimestamp ++ ts) ++ ';' :: [';']), ?_⟩
    rw [metricEncNF]
    simp [List.append_assoc]
  refine ⟨?_, ?_, ?_, ?_, ?_⟩
  · rw [get_type, if_neg (by push_neg; exact ⟨hnoSU, hnoSH⟩),
      if_pos (Or.inl hMprobe), get_metric_type, metricEncNF, List.append_assoc]
    exact searchExtractHit _ _ _ _ (by decide) hmt1 hmt3
  · rw [get_patient_id, metricEncNF]
    rw [skipTwo _ _ (by decide) (by decide)
        (notInfLitVal (by decide) hmt2 (by decide))
        (notInfLitVal (by decide) hmt2 (by decide))]
    rw [searchExtractConsNe _ _ (by decide)]
    rw [List.append_assoc]
    exact searchExtractHit _ _ _ _ (by decide) hp1 hp3
  · rw [get_device_id, metricEncNF]
    rw [skipTwo _ _ (by decide) (by decide)
        (notInfLitVal (by decide) hmt2 (by decide))
        (notInfLitVal (by decide) hmt2 (by decide))]
    rw [searchExtractConsNe _ _ (by decide)]
    rw [skipTwo _ _ (by decide) (by decide)
        (notInfLitVal (by decide) hp2 (by decide))
        (notInfLitVal (by decide) hp2 (by decide))]
    rw [searchExtractConsNe _ _ (by decide)]
    rw [List.append_assoc]
    exact searchExtractHit _ _ _ _ (by decide) hd1 hd3
  · rw [get_data, if_neg hnoSam, if_pos hmetricProbe, get_metric, metricEncNF]
    rw [skipOne _ _ (by decide) (notInfLitVal (by decide) hmt2 (by decide))]
    rw [searchExtractConsNe _ _ (by decide)]
    rw [skipOne _ _ (by decide) (notInfLitVal (by decide) hp2 (by decide))]
    rw [searchExtractConsNe _ _ (by decide)]
    rw [skipOne _ _ (by decide) (notInfLitVal (by decide) hd2 (by decide))]
    rw [searchExtractConsNe _ _ (by decide)]
    rw [List.append_assoc]
    exact searchExtractHit _ _ _ _ (by decide) hm1 hm3
  · rw [get_timestamp, metricEncNF]
    rw [skipOne _ _ (by decide) (notInfLitVal (by decide) hmt2 (by decide))]
    rw [searchExtractConsNe _ _ (by decide)]
    rw [skipOne _ _ (by decide) (notInfLitVal (by decide) hp2 (by decide))]
    rw [searchExtractConsNe _ _ (by decide)]
    rw [skipOne _ _ (by decide) (notInfLitVal (by decide) hd2 (by decide))]
    rw [searchExtractConsNe _ _ (by decide)]
    rw [skipOne _ _ (by decide)
        (notInfPayloadRun (PS "timestamp") (by decide) hmT (by decide)
          (by decide))]
    rw [searchExtractConsNe _ _ (by decide)]
    rw [List.append_assoc]
    exact searchExtractHit _ _ _ _ (by decide) hts1 hts3

/-- A one character string occurs in s iff the character is an element. -/
theorem singletonInfix {c : Char} {s : PStr} : [c] <:+: s ↔ c ∈ s := by
  constructor
  · exact fun h => h.subset (List.mem_cons_self c [])
  · intro h
    obtain ⟨l1, l2, rfl⟩ := List.append_of_mem h
    exact ⟨l1, l2, by simp⟩

/-- The wire format consequences of Python float conversion succeeding. -/
theorem floatConvertibleFacts {ts : PStr} (h : floatConvertible ts = true) :
    ts ≠ [] ∧ ':' ∉ ts ∧ ';' ∉ ts := by
  rw [floatConvertible, Bool.and_eq_true] at h
  obtain ⟨h1, h2⟩ := h
  rw [List.all_eq_true] at h2
  refine ⟨by simpa using h1, fun hc => ?_, fun hc => ?_⟩
  · have := h2 ':' hc
    simp at this
  · have := h2 ';' hc
    simp at this

/-- The reserved word check of create_pimap_sample passes under the payload
hypotheses. -/
theorem sampleSpecialKeysFalse {s : PStr}
    (hsP : ¬ PS "patient_id" <:+: s) (hsD : ¬ PS "device_id" <:+: s)
    (hsS : ¬ PS "sample" <:+: s) (hsT : ¬ PS "timestamp" <:+: s)
    (hs3 : ';' ∉ s) :
    specialKeysSample.any (fun k => decide (k <:+: s)) = false := by
  simp only [specialKeysSample, List.any_cons, List.any_nil, Bool.or_false,
    Bool.or_eq_false_iff, decide_eq_false_iff_not]
  exact ⟨hsP, hsD, hsS, hsT, fun h => hs3 (singletonInfix.1 h)⟩

/-- The reserved word check of create_pimap_metric passes under the payload
hypotheses. -/
theorem metricSpecialKeysFalse {m : PStr}
    (hmP : ¬ PS "patient_id" <:+: m) (hmD : ¬ PS "device_id" <:+: m)
    (hmM : ¬ PS "metric" <:+: m) (hmT : ¬ PS "timestamp" <:+: m)
    (hm3 : ';' ∉ m) :
    specialKeysMetric.any (fun k => decide (k <:+: m)) = false := by
  simp only [specialKeysMetric, List.any_cons, List.any_nil, Bool.or_false,
    Bool.or_eq_false_iff, decide_eq_false_iff_not]
  exact ⟨hmP, hmD, hmM, hmT, fun h => hm3 (singletonInfix.1 h)⟩

/-- C1 (amended).  Codec round trip.  For every tuple satisfying the
reserved character and keyword invariants of the specification, and
additionally (forced by the counterexample below): every field value is non
empty, and the metric payload contains none of the sample shaped keys
"sample:", "sample_type:", "sample-type:", the extractors applied to the
record produced by create_pimap_sample (resp. create_pimap_metric applied
to a source datum carrying the patient id, device id and timestamp) return
exactly the corresponding input fields. -/
theorem claim_C1_roundtrip :
    (∀ t p d s ts : PStr,
      t ≠ [] → ':' ∉ t → ';' ∉ t →
      p ≠ [] → ':' ∉ p → ';' ∉ p →
      d ≠ [] → ':' ∉ d → ';' ∉ d →
      s ≠ [] → ¬ PS "patient_id" <:+: s → ¬ PS "device_id" <:+: s →
      ¬ PS "sample" <:+: s → ¬ PS "timestamp" <:+: s → ';' ∉ s →
      floatConvertible ts = true →
      create_pimap_sample t p d s ts = some (sampleEnc t p d s ts) ∧
      get_type (sampleEnc t p d s ts) = some t ∧
      get_patient_id (sampleEnc t p d s ts) = some p ∧
      get_device_id (sampleEnc t p d s ts) = some d ∧
      get_data (sampleEnc t p d s ts) = some s ∧
      get_timestamp (sampleEnc t p d s ts) = some ts) ∧
    (∀ mt p d m ts src : PStr,
      mt ≠ [] → ':' ∉ mt → ';' ∉ mt →
      p ≠ [] → ':' ∉ p → ';' ∉ p →
      d ≠ [] → ':' ∉ d → ';' ∉ d →
      m ≠ [] → ¬ PS "patient_id" <:+: m → ¬ PS "device_id" <:+: m →
      ¬ PS "metric" <:+: m → ¬ PS "timestamp" <:+: m → ';' ∉ m →
      ¬ kSample <:+: m → ¬ kSampleTypeU <:+: m → ¬ kSampleTypeH <:+: m →
      floatConvertible ts = true →
      get_patient_id src = some p → get_device_id src = some d →
      get_timestamp src = some ts →
      create_pimap_metric mt src m = some (metricEnc mt p d m ts) ∧
      get_type (metricEnc mt p d m ts) = some mt ∧
      get_patient_id (metricEnc mt p d m ts) = some p ∧
      get_device_id (metricEnc mt p d m ts) = some d ∧
      get_data (metricEnc mt p d m ts) = some m ∧
      get_timestamp (metricEnc mt p d m ts) = some ts) := by
  constructor
  · intro t p d s ts ht1 ht2 ht3 hp1 hp2 hp3 hd1 hd2 hd3 hs1 hsP hsD hsS hsT
      hs3 hfc
    obtain ⟨hts1, hts2, hts3⟩ := floatConvertibleFacts hfc
    have hcreate : create_pimap_sample t p d s ts = some (sampleEnc t p d s ts) := by
      rw [create_pimap_sample, if_neg (not_or.2 ⟨ht2, ht3⟩),
        if_neg (not_or.2 ⟨hp2, hp3⟩), if_neg (not_or.2 ⟨hd2, hd3⟩)]
      rw [sampleSpecialKeysFalse hsP hsD hsS hsT hs3, hfc]
      rfl
    obtain ⟨e1, e2, e3, e4, e5⟩ := sampleExtractors t p d s ts ht1 ht2 ht3
      hp1 hp2 hp3 hd1 hd2 hd3 hs1 hsT hs3 hts1 hts2 hts3
    exact ⟨hcreate, e1, e2, e3, e4, e5⟩
  · intro mt p d m ts src hmt1 hmt2 hmt3 hp1 hp2 hp3 hd1 hd2 hd3 hm1 hmP hmD
      hmM hmT hm3 hmS1 hmS2 hmS3 hfc hsrcP hsrcD hsrcT
    obtain ⟨hts1, hts2, hts3⟩ := floatConvertibleFacts hfc
    have hcreate : create_pimap_metric mt src m = some (metricEnc mt p d m ts) := by
      rw [create_pimap_metric, if_neg (not_or.2 ⟨hmt2, hmt3⟩), hsrcP, hsrcD]
      simp only [metricSpecialKeysFalse hmP hmD hmM hmT hm3, Bool.false_eq_true,
        if_false, hsrcT, hfc]
      rfl
    obtain ⟨e1, e2, e3, e4, e5⟩ := metricExtractors mt p d m ts hmt1 hmt2 hmt3
      hp1 hp2 hp3 hd1 hd2 hd3 hm1 hmT hm3 hmS1 hmS2 hmS3 hts1 hts2 hts3
    exact ⟨hcreate, e1, e2, e3, e4, e5⟩

/-- C1, counterexample to the claim as stated.  The metric payload
"sample:x" satisfies every reserved character and keyword invariant of
section 3 of the specification (for metrics the reserved words are
patient_id, device_id, metric, timestamp and the semicolon), the encoding
succeeds, but get_data on the produced metric returns "x" instead of the
payload "sample:x": the sample shaped probe of get_data matches inside the
payload. -/
theorem claim_C1_counterexample :
    (¬ PS "patient_id" <:+: PS "sample:x") ∧
    (¬ PS "device_id" <:+: PS "sample:x") ∧
    (¬ PS "metric" <:+: PS "sample:x") ∧
    (¬ PS "timestamp" <:+: PS "sample:x") ∧
    (';' ∉ PS "sample:x") ∧
    validate_datum (sampleEnc (PS "t") (PS "p") (PS "d") (PS "q") (PS "1.0")) = true ∧
    create_pimap_metric (PS "m")
        (sampleEnc (PS "t") (PS "p") (PS "d") (PS "q") (PS "1.0"))
        (PS "sample:x")
      = some (metricEnc (PS "m") (PS "p") (PS "d") (PS "sample:x") (PS "1.0")) ∧
    get_data (metricEnc (PS "m") (PS "p") (PS "d") (PS "sample:x") (PS "1.0"))
      = some (PS "x") ∧
    PS "x" ≠ PS "sample:x" := by
  decide

/-- Witness for C1: the amended round trip applied to a concrete sample
tuple and a concrete metric derived from it. -/
theorem claim_C1_roundtrip_witness :
    (create_pimap_sample (PS "pressure_bandage") (PS "p1") (PS "d1")
        (PS "data0") (PS "1.5")
      = some (sampleEnc (PS "pressure_bandage") (PS "p1") (PS "d1")
        (PS "data0") (PS "1.5")) ∧
     get_type (sampleEnc (PS "pressure_bandage") (PS "p1") (PS "d1")
        (PS "data0") (PS "1.5")) = some (PS "pressure_bandage") ∧
     get_patient_id (sampleEnc (PS "pressure_bandage") (PS "p1") (PS "d1")
        (PS "data0") (PS "1.5")) = some (PS "p1") ∧
     get_device_id (sampleEnc (PS "pressure_bandage") (PS "p1") (PS "d1")
        (PS "data0") (PS "1.5")) = some (PS "d1") ∧
     get_data (sampleEnc (PS "pressure_bandage") (PS "p1") (PS "d1")
        (PS "data0") (PS "1.5")) = some (PS "data0") ∧
     get_timestamp (sampleEnc (PS "pressure_bandage") (PS "p1") (PS "d1")
        (PS "data0") (PS "1.5")) = some (PS "1.5")) ∧
    (create_pimap_metric (PS "objective_mobility")
        (sampleEnc (PS "pressure_bandage") (PS "p1") (PS "d1")
          (PS "data0") (PS "1.5")) (PS "angle0")
      = some (metricEnc (PS "objective_mobility") (PS "p1") (PS "d1")
        (PS "angle0") (PS "1.5")) ∧
     get_type (metricEnc (PS "objective_mobility") (PS "p1") (PS "d1")
        (PS "angle0") (PS "1.5")) = some (PS "objective_mobility") ∧
     get_patient_id (metricEnc (PS "objective_mobility") (PS "p1") (PS "d1")
        (PS "angle0") (PS "1.5")) = some (PS "p1") ∧
     get_device_id (metricEnc (PS "objective_mobility") (PS "p1") (PS "d1")
        (PS "angle0") (PS "1.5")) = some (PS "d1") ∧
     get_data (metricEnc (PS "objective_mobility") (PS "p1") (PS "d1")
        (PS "angle0") (PS "1.5")) = some (PS "angle0") ∧
     get_timestamp (metricEnc (PS "objective_mobility") (PS "p1") (PS "d1")
        (PS "angle0") (PS "1.5")) = some (PS "1.5")) :=
  ⟨claim_C1_roundtrip.1 (PS "pressure_bandage") (PS "p1") (PS "d1")
      (PS "data0") (PS "1.5") (by decide) (by decide) (by decide) (by decide)
      (by decide) (by decide) (by decide) (by decide) (by decide) (by decide)
      (by decide) (by decide) (by decide) (by decide) (by decide) (by decide),
   claim_C1_roundtrip.2 (PS "objective_mobility") (PS "p1") (PS "d1")
      (PS "angle0") (PS "1.5")
      (sampleEnc (PS "pressure_bandage") (PS "p1") (PS "d1")
        (PS "data0") (PS "1.5"))
      (by decide) (by decide) (by decide) (by decide) (by decide) (by decide)
      (by decide) (by decide) (by decide) (by decide) (by decide) (by decide)
      (by decide) (by decide) (by decide) (by decide) (by decide) (by decide)
      (by decide) (by decide) (by decide) (by decide)⟩

/-! ### Claim C10: validation ignores field order and surrounding content -/

theorem matchKeyAtSomePfx {k s g : PStr} (h : matchKeyAt k s = some g) :
    k <+: s := by
  by_cases hp : k <+: s
  · exact hp
  · rw [matchKeyAtNone hp] at h
    cases h

theorem tryKeysSomeEx {keys : List PStr} {s g : PStr}
    (h : tryKeys keys s = some g) : ∃ k ∈ keys, matchKeyAt k s = some g := by
  induction keys with
  | nil => cases h
  | cons k ks ih =>
    unfold tryKeys at h
    cases hmk : matchKeyAt k s with
    | some g2 =>
      rw [hmk] at h
      cases h
      exact ⟨k, List.mem_cons_self k ks, hmk⟩
    | none =>
      rw [hmk] at h
      obtain ⟨k2, hk2, hm2⟩ := ih h
      exact ⟨k2, List.mem_cons_of_mem k hk2, hm2⟩

/-- A successful full pattern search implies that one of the keys occurs in
the string (so the bare key probe of get_type / get_data also fires). -/
theorem searchExtractSomeInf {keys : List PStr} {s : PStr}
    (h : (searchExtract keys s).isSome) : ∃ k ∈ keys, k <:+: s := by
  induction s with
  | nil => simp [searchExtract] at h
  | cons c rest ih =>
    rw [searchExtractCons] at h
    cases htk : tryKeys keys (c :: rest) with
    | some g =>
      obtain ⟨k, hk, hm⟩ := tryKeysSomeEx htk
      exact ⟨k, hk, (matchKeyAtSomePfx hm).isInfix⟩
    | none =>
      rw [htk] at h
      obtain ⟨k, hk, hi⟩ := ih h
      exact ⟨k, hk, hi.trans (List.suffix_cons c rest).isInfix⟩

/-- C10 (amended).  validate_datum returns true for every string that
contains, anywhere and in any order, a complete type fragment, patient id
fragment, device id fragment, data fragment and timestamp fragment of the
form key:value; with a non empty semicolon free value — including strings
with arbitrary surrounding garbage and fields out of the fixed wire order —
provided that, when the type (resp. data) fragment is metric shaped, the
string nowhere contains the bare sample shaped probe "sample_type:" /
"sample-type:" (resp. "sample:"): get_type and get_data try the sample
probe first and commit to it without falling back.  The fixed field order
of the wire encoding is not checked by validation. -/
theorem claim_C10_validate_order_free (s : PStr)
    (hty : (get_sample_type s).isSome ∨
      ((get_metric_type s).isSome ∧ ¬ kSampleTypeU <:+: s ∧ ¬ kSampleTypeH <:+: s))
    (hpid : (get_patient_id s).isSome)
    (hdid : (get_device_id s).isSome)
    (hdat : (get_sample s).isSome ∨ ((get_metric s).isSome ∧ ¬ kSample <:+: s))
    (hts : (get_timestamp s).isSome) :
    validate_datum s = true := by
  have htype : (get_type s).isSome := by
    rcases hty with h | ⟨h, h1, h2⟩
    · rw [get_type]
      have hor : kSampleTypeU <:+: s ∨ kSampleTypeH <:+: s := by
        obtain ⟨k, hk, hi⟩ := searchExtractSomeInf h
        rcases List.mem_cons.1 hk with rfl | hk
        · exact Or.inl hi
        rcases List.mem_cons.1 hk with rfl | hk
        · exact Or.inr hi
        · cases hk
      rw [if_pos hor]
      exact h
    · rw [get_type, if_neg (not_or.2 ⟨h1, h2⟩)]
      have hor : kMetricTypeU <:+: s ∨ kMetricTypeH <:+: s := by
        obtain ⟨k, hk, hi⟩ := searchExtractSomeInf h
        rcases List.mem_cons.1 hk with rfl | hk
        · exact Or.inl hi
        rcases List.mem_cons.1 hk with rfl | hk
        · exact Or.inr hi
        · cases hk
      rw [if_pos hor]
      exact h
  have hdata : (get_data s).isSome := by
    rcases hdat with h | ⟨h, h1⟩
    · rw [get_data]
      have hor : kSample <:+: s := by
        obtain ⟨k, hk, hi⟩ := searchExtractSomeInf h
        rcases List.mem_cons.1 hk with rfl | hk
        · exact hi
        · cases hk
      rw [if_pos hor]
      exact h
    · rw [get_data, if_neg h1]
      have hor : kMetric <:+: s := by
        obtain ⟨k, hk, hi⟩ := searchExtractSomeInf h
        rcases List.mem_cons.1 hk with rfl | hk
        · exact hi
        · cases hk
      rw [if_pos hor]
      exact h
  rw [validate_datum, htype, hpid, hdid, hdata, hts]
  rfl

set_option maxRecDepth 4000 in
/-- C10, counterexample to the claim as stated.  The string holds complete
metric shaped fragments for all five fields (each key:value; with a non
empty value) plus trailing garbage, yet validate_datum returns false: the
trailing garbage contains the bare probe "sample_type:", so get_type
commits to the sample path and fails. -/
theorem claim_C10_counterexample :
    get_metric_type (PS "metric_type:a;patient_id:b;device_id:c;metric:d;timestamp:1;;sample_type:")
      = some (PS "a") ∧
    get_patient_id (PS "metric_type:a;patient_id:b;device_id:c;metric:d;timestamp:1;;sample_type:")
      = some (PS "b") ∧
    get_device_id (PS "metric_type:a;patient_id:b;device_id:c;metric:d;timestamp:1;;sample_type:")
      = some (PS "c") ∧
    get_metric (PS "metric_type:a;patient_id:b;device_id:c;metric:d;timestamp:1;;sample_type:")
      = some (PS "d") ∧
    get_timestamp (PS "metric_type:a;patient_id:b;device_id:c;metric:d;timestamp:1;;sample_type:")
      = some (PS "1") ∧
    validate_datum (PS "metric_type:a;patient_id:b;device_id:c;metric:d;timestamp:1;;sample_type:")
      = false := by
  decide

/-- Witness for C10: a string with garbage on both sides and the five
fragments in scrambled order validates. -/
theorem claim_C10_validate_order_free_witness :
    ((get_sample_type (PS "junk;timestamp:9;device_id:c;sample:d;patient_id:b;sample_type:a;tail")).isSome ∨
      ((get_metric_type (PS "junk;timestamp:9;device_id:c;sample:d;patient_id:b;sample_type:a;tail")).isSome ∧
        ¬ kSampleTypeU <:+: PS "junk;timestamp:9;device_id:c;sample:d;patient_id:b;sample_type:a;tail" ∧
        ¬ kSampleTypeH <:+: PS "junk;timestamp:9;device_id:c;sample:d;patient_id:b;sample_type:a;tail")) ∧
    validate_datum (PS "junk;timestamp:9;device_id:c;sample:d;patient_id:b;sample_type:a;tail") = true :=
  ⟨Or.inl (by decide),
   claim_C10_validate_order_free _ (Or.inl (by decide)) (by decide) (by decide)
     (Or.inl (by decide)) (by decide)⟩

/-! ### Claim C2: sense() drains, sorts and appends telemetry

PimapSenseUdp.sense and PimapSenseTcp.sense drain the process safe queue
into a list, sort it, and return it with any telemetry system sample
appended.  The queue drain and the telemetry construction involve wall
clock time and multiprocessing; we model sense on the drained queue
contents and an abstract (possibly empty) telemetry list, which is exactly
how the source combines them: pimap_data.sort(...) followed by
return pimap_data + pimap_system_samples.

The UDP variant sorts with key=pu.get_timestamp(x) — the timestamp STRING,
compared lexicographically by Python — while the TCP variant sorts with
key=float(pu.get_timestamp(x)) — the numeric value. -/

/-- Value of a decimal digit string (most significant first). -/
def digitsVal (l : PStr) : ℕ :=
  l.foldl (fun acc c => 10 * acc + (c.toNat - 48)) 0

/-- Decimal value of an unsigned numeral with an optional fractional part.
Models the Python float() conversion of the decimal timestamp strings
produced by str(time.time()); exponents do not occur there and are not
modelled, and the value is exact (rational) rather than a binary double. -/
def ratOfStringPos (s : PStr) : ℚ :=
  (digitsVal (s.takeWhile (fun c => c != '.')) : ℚ) +
    (digitsVal ((s.dropWhile (fun c => c != '.')).drop 1) : ℚ) /
      (10 : ℚ) ^ ((s.dropWhile (fun c => c != '.')).drop 1).length

/-- Signed decimal value: models float(timestamp string). -/
def ratOfString (s : PStr) : ℚ :=
  if s.head? = some '-' then - ratOfStringPos (s.drop 1) else ratOfStringPos s

/-- The TCP sort key float(pu.get_timestamp(x)).  Every datum placed on the
queue by a worker carries a timestamp (the source would raise otherwise),
so the default value for a missing timestamp is never used on queue
contents. -/
def tsRatKey (x : PStr) : ℚ :=
  match get_timestamp x with
  | some t => ratOfString t
  | none => 0

/-- The UDP sort key pu.get_timestamp(x): the raw timestamp string. -/
def tsStrKey (x : PStr) : PStr :=
  match get_timestamp x with
  | some t => t
  | none => []

/-- Python string comparison: strict lexicographic order by code point,
with a proper prefix smaller than the longer string. -/
def pyStrLt : PStr → PStr → Bool
  | [], [] => false
  | [], _ :: _ => true
  | _ :: _, [] => false
  | a :: as, b :: bs => if a < b then true else if b < a then false else pyStrLt as bs

/-- The non strict comparison used to model an ascending stable sort. -/
def pyStrLe (x y : PStr) : Bool := !(pyStrLt y x)

/-- PimapSenseUdp.sense: drain the queue, sort by the timestamp STRING
(pimap_data.sort(key=lambda x: pu.get_timestamp(x))), append telemetry. -/
def udp_sense (queue telemetry : List PStr) : List PStr :=
  (queue.mergeSort fun x y => pyStrLe (tsStrKey x) (tsStrKey y)) ++ telemetry

/-- PimapSenseTcp.sense: drain the queue, sort by the float value of the
timestamp (pimap_data.sort(key=lambda x: float(pu.get_timestamp(x)))),
append telemetry. -/
def tcp_sense (queue telemetry : List PStr) : List PStr :=
  (queue.mergeSort fun x y => decide (tsRatKey x ≤ tsRatKey y)) ++ telemetry

theorem pyStrLtAsymm : ∀ x y : PStr, pyStrLt x y = true → pyStrLt y x = false := by
  intro x
  induction x with
  | nil => intro y h; cases y <;> simp [pyStrLt]
  | cons a as ih =>
    intro y h
    cases y with
    | nil => simp [pyStrLt] at h
    | cons b bs =>
      rw [pyStrLt] at h ⊢
      by_cases hab : a < b
      · rw [if_neg (lt_asymm hab), if_pos hab]
      · rw [if_neg hab] at h
        by_cases hba : b < a
        · rw [if_pos hba] at h
          cases h
        · rw [if_neg hba] at h
          rw [if_neg hba, if_neg hab]
          exact ih bs h

theorem pyStrLtConn : ∀ x y : PStr, pyStrLt x y = false → pyStrLt y x = false → x = y := by
  intro x
  induction x with
  | nil =>
    intro y h1 _
    cases y with
    | nil => rfl
    | cons b bs => simp [pyStrLt] at h1
  | cons a as ih =>
    intro y h1 h2
    cases y with
    | nil => simp [pyStrLt] at h2
    | cons b bs =>
      rw [pyStrLt] at h1 h2
      by_cases hab : a < b
      · rw [if_pos hab] at h1
        cases h1
      · by_cases hba : b < a
        · rw [if_pos hba] at h2
          cases h2
        · rw [if_neg hab, if_neg hba] at h1
          rw [if_neg hba, if_neg hab] at h2
          have hab2 : a = b := le_antisymm (not_lt.1 hba) (not_lt.1 hab)
          rw [hab2, ih bs h1 h2]

theorem pyStrLtTrans :
    ∀ x y z : PStr, pyStrLt x y = true → pyStrLt y z = true → pyStrLt x z = true := by
  intro x
  induction x with
  | nil =>
    intro y z h1 h2
    cases y with
    | nil => cases h1
    | cons b bs =>
      cases z with
      | nil => cases h2
      | cons c cs => rfl
  | cons a as ih =>
    intro y z h1 h2
    cases y with
    | nil => simp [pyStrLt] at h1
    | cons b bs =>
      cases z with
      | nil => simp [pyStrLt] at h2
      | cons c cs =>
        rw [pyStrLt] at h1 h2 ⊢
        by_cases hab : a < b
        · by_cases hbc : b < c
          · rw [if_pos (lt_trans hab hbc)]
          · by_cases hcb : c < b
            · rw [if_neg hbc, if_pos hcb] at h2
              cases h2
            · have hbc2 : b = c := le_antisymm (not_lt.1 hcb) (not_lt.1 hbc)
              rw [if_pos (hbc2 ▸ hab)]
        · by_cases hba : b < a
          · rw [if_neg hab, if_pos hba] at h1
            cases h1
          · have hab2 : a = b := le_antisymm (not_lt.1 hba) (not_lt.1 hab)
            rw [if_neg hab, if_neg hba] at h1
            by_cases hbc : b < c
            · rw [if_pos (hab2 ▸ hbc)]
            · by_cases hcb : c < b
              · rw [if_neg hbc, if_pos hcb] at h2
                cases h2
              · rw [if_neg hbc, if_neg hcb] at h2
                rw [if_neg (hab2 ▸ hbc), if_neg (hab2 ▸ hcb)]
                exact ih bs cs h1 h2

theorem pyStrLeTrans (a b c : PStr) (h1 : pyStrLe a b = true)
    (h2 : pyStrLe b c = true) : pyStrLe a c = true := by
  rw [pyStrLe, Bool.not_eq_true'] at h1 h2 ⊢
  by_contra hca
  rw [Bool.not_eq_false] at hca
  cases hab : pyStrLt a b with
  | true =>
    have h3 := pyStrLtTrans c a b hca hab
    rw [h2] at h3
    cases h3
  | false =>
    have heq := pyStrLtConn a b hab h1
    rw [heq] at hca
    rw [hca] at h2
    cases h2

theorem pyStrLeTotal (x y : PStr) : pyStrLe x y || pyStrLe y x := by
  rw [pyStrLe, pyStrLe]
  by_cases h : pyStrLt y x = true
  · rw [pyStrLtAsymm y x h]
    simp
  · rw [Bool.not_eq_true] at h
    rw [h]
    simp

/-- C2 (amended).  Both sense variants return exactly the drained queue —
no loss, no duplication (a permutation) — followed by any telemetry
SystemSample; the TCP variant arranges the data in non decreasing order of
the NUMERIC (float) value of the timestamp field, while the UDP variant
arranges it in non decreasing LEXICOGRAPHIC order of the timestamp STRING
(which agrees with numeric order only when the string comparison does). -/
theorem claim_C2_sense_ordering (queue telemetry : List PStr) :
    (∃ data, tcp_sense queue telemetry = data ++ telemetry ∧
      data.Perm queue ∧ data.Pairwise (fun x y => tsRatKey x ≤ tsRatKey y)) ∧
    (∃ data, udp_sense queue telemetry = data ++ telemetry ∧
      data.Perm queue ∧
      data.Pairwise (fun x y => pyStrLe (tsStrKey x) (tsStrKey y) = true)) := by
  constructor
  · refine ⟨_, rfl, List.mergeSort_perm queue _, ?_⟩
    have hs := @List.sorted_mergeSort PStr
      (fun x y => decide (tsRatKey x ≤ tsRatKey y))
      (fun a b c h1 h2 => by
        simp only [decide_eq_true_eq] at h1 h2 ⊢
        exact le_trans h1 h2)
      (fun a b => by
        simp only [Bool.or_eq_true, decide_eq_true_eq]
        exact le_total _ _) queue
    exact hs.imp fun h => by simpa using h
  · refine ⟨_, rfl, List.mergeSort_perm queue _, ?_⟩
    exact @List.sorted_mergeSort PStr
      (fun x y => pyStrLe (tsStrKey x) (tsStrKey y))
      (fun a b c h1 h2 => pyStrLeTrans _ _ _ h1 h2)
      (fun a b => pyStrLeTotal _ _) queue

theorem tsRatKeyEval (x t : PStr) (h : get_timestamp x = some t) :
    tsRatKey x = ratOfString t := by
  unfold tsRatKey
  rw [h]

theorem ratOfStringEval (s ip fr : PStr)
    (hip : s.takeWhile (fun c => c != '.') = ip)
    (hfr : (s.dropWhile (fun c => c != '.')).drop 1 = fr)
    (hhead : s.head? ≠ some '-') :
    ratOfString s = (digitsVal ip : ℚ) + (digitsVal fr : ℚ) / (10 : ℚ) ^ fr.length := by
  rw [ratOfString, if_neg hhead, ratOfStringPos, hip, hfr]

unseal List.merge List.mergeSort in
/-- C2, counterexample to the claim as stated.  Two well formed samples
with timestamps 9.0 and 10.0 sit in the UDP listener queue; the UDP sense
sorts by the timestamp STRING, and "10.0" precedes "9.0" lexicographically,
so the returned order has numeric timestamps 10 before 9 — not the non
decreasing numeric order the claim asserts for both variants. -/
theorem claim_C2_counterexample :
    tsRatKey (sampleEnc (PS "t") (PS "p") (PS "d") (PS "s0") (PS "9.0")) = 9 ∧
    tsRatKey (sampleEnc (PS "t") (PS "p") (PS "d") (PS "s1") (PS "10.0")) = 10 ∧
    udp_sense
        [sampleEnc (PS "t") (PS "p") (PS "d") (PS "s0") (PS "9.0"),
         sampleEnc (PS "t") (PS "p") (PS "d") (PS "s1") (PS "10.0")] []
      = [sampleEnc (PS "t") (PS "p") (PS "d") (PS "s1") (PS "10.0"),
         sampleEnc (PS "t") (PS "p") (PS "d") (PS "s0") (PS "9.0")] ∧
    ¬ ((10 : ℚ) ≤ 9) := by
  refine ⟨?_, ?_, by decide, by norm_num⟩
  · rw [tsRatKeyEval (sampleEnc (PS "t") (PS "p") (PS "d") (PS "s0") (PS "9.0"))
        (PS "9.0") (by decide),
      ratOfStringEval (PS "9.0") (PS "9") (PS "0") (by decide) (by decide)
        (by decide)]
    norm_num [show digitsVal (PS "9") = 9 from by decide,
      show digitsVal (PS "0") = 0 from by decide,
      show (PS "0").length = 1 from by decide]
  · rw [tsRatKeyEval (sampleEnc (PS "t") (PS "p") (PS "d") (PS "s1") (PS "10.0"))
        (PS "10.0") (by decide),
      ratOfStringEval (PS "10.0") (PS "10") (PS "0") (by decide) (by decide)
        (by decide)]
    norm_num [show digitsVal (PS "10") = 10 from by decide,
      show digitsVal (PS "0") = 0 from by decide,
      show (PS "0").length = 1 from by decide]

/-! ### Claim C3: TCP classification worker

PimapSenseTcp._create_pimap_data_and_add_to_queue takes one
(processed, address) pair off the intermediate queue.  It validates ONLY
processed[0] + ";;" and, on that single outcome, either pushes every record
through with the terminator re-appended (extracting patient and device ids
from each for the address table — a ValueError there kills the worker), or
wraps every record with create_pimap_sample (whose ValueError also kills
the worker).  An empty batch would crash on the processed[0] indexing;
none models a raised exception, and the wall clock timestamp given to
wrapped samples is passed as the now argument. -/
def tcp_classify_batch (sample_type addr_ip addr_port now : PStr)
    (processed : List PStr) : Option (List PStr) :=
  match processed with
  | [] => none
  | first :: _ =>
    if validate_datum (first ++ term) then
      if processed.all (fun dtm =>
          (get_patient_id (dtm ++ term)).isSome &&
            (get_device_id (dtm ++ term)).isSome) then
        some (processed.map (fun dtm => dtm ++ term))
      else none
    else
      processed.mapM (fun dtm =>
        create_pimap_sample sample_type addr_ip addr_port dtm now)

theorem mapMOptionEq {α β : Type} (f : α → Option β) (g : α → β) :
    ∀ l : List α, (∀ x ∈ l, f x = some (g x)) → l.mapM f = some (l.map g) := by
  intro l
  induction l with
  | nil => intro _; rfl
  | cons a t ih =>
    intro h
    rw [List.mapM_cons, h a (List.mem_cons_self a t),
      ih fun x hx => h x (List.mem_cons_of_mem a hx)]
    rfl

/-- C3 (amended).  The classification worker decides each BATCH, not each
record, by validating only the first record: when the first record (with
terminator restored) validates, every record of the batch is pushed through
unchanged — conforming or not — provided each carries extractable patient
and device ids (otherwise the worker raises); when the first record does
not validate, every record is wrapped into a synthetic sample keyed by the
source address — provided no record contains a semicolon or reserved word
(otherwise create_pimap_sample raises and kills the worker). -/
theorem claim_C3_tcp_batch_classification
    (st ip port now first : PStr) (rest : List PStr) :
    (validate_datum (first ++ term) = true →
      (∀ dtm ∈ first :: rest, (get_patient_id (dtm ++ term)).isSome ∧
        (get_device_id (dtm ++ term)).isSome) →
      tcp_classify_batch st ip port now (first :: rest)
        = some ((first :: rest).map (fun dtm => dtm ++ term))) ∧
    (validate_datum (first ++ term) = false →
      ':' ∉ st → ';' ∉ st → ':' ∉ ip → ';' ∉ ip → ':' ∉ port → ';' ∉ port →
      floatConvertible now = true →
      (∀ dtm ∈ first :: rest, ¬ PS "patient_id" <:+: dtm ∧
        ¬ PS "device_id" <:+: dtm ∧ ¬ PS "sample" <:+: dtm ∧
        ¬ PS "timestamp" <:+: dtm ∧ ';' ∉ dtm) →
      tcp_classify_batch st ip port now (first :: rest)
        = some ((first :: rest).map (fun dtm => sampleEnc st ip port dtm now))) := by
  constructor
  · intro hv hall
    rw [tcp_classify_batch, if_pos hv, if_pos]
    rw [List.all_eq_true]
    intro dtm hdtm
    rw [Bool.and_eq_true]
    obtain ⟨h1, h2⟩ := hall dtm hdtm
    exact ⟨h1, h2⟩
  · intro hv hst1 hst2 hip1 hip2 hpo1 hpo2 hnow hall
    rw [tcp_classify_batch, if_neg (by rw [hv]; exact Bool.false_ne_true)]
    apply mapMOptionEq
    intro dtm hdtm
    obtain ⟨h1, h2, h3, h4, h5⟩ := hall dtm hdtm
    rw [create_pimap_sample, if_neg (not_or.2 ⟨hst1, hst2⟩),
      if_neg (not_or.2 ⟨hip1, hip2⟩), if_neg (not_or.2 ⟨hpo1, hpo2⟩),
      sampleSpecialKeysFalse h1 h2 h3 h4 h5, hnow]
    rfl

set_option maxRecDepth 8000 in
/-- C3, counterexample to the claim as stated.  First part: a batch whose
first record validates and whose second is non conforming (it lacks a
timestamp) is pushed through entirely — the non conforming record is
emitted unchanged, not wrapped.  Second part: a batch of one non
conforming record containing a bare semicolon makes the wrap path raise
(create_pimap_sample rejects a payload holding a semicolon), so record
content can kill the worker. -/
theorem claim_C3_counterexample :
    validate_datum
        (PS "sample_type:x;patient_id:p2;device_id:d2;sample:s2" ++ term)
      = false ∧
    tcp_classify_batch (PS "tcp") (PS "127.0.0.1") (PS "5000") (PS "2.0")
        [PS "sample_type:t;patient_id:p;device_id:d;sample:s;timestamp:1.0",
         PS "sample_type:x;patient_id:p2;device_id:d2;sample:s2"]
      = some
        [PS "sample_type:t;patient_id:p;device_id:d;sample:s;timestamp:1.0" ++ term,
         PS "sample_type:x;patient_id:p2;device_id:d2;sample:s2" ++ term] ∧
    tcp_classify_batch (PS "tcp") (PS "127.0.0.1") (PS "5000") (PS "2.0")
        [PS "a;b"]
      = none := by
  refine ⟨by decide, by decide, by decide⟩

/-- Witness for C3: both branches of the amended characterization applied
to concrete batches. -/
theorem claim_C3_tcp_batch_classification_witness :
    (tcp_classify_batch (PS "tcp") (PS "127.0.0.1") (PS "5000") (PS "2.0")
        [PS "sample_type:t;patient_id:p;device_id:d;sample:s;timestamp:1.0"]
      = some
        [PS "sample_type:t;patient_id:p;device_id:d;sample:s;timestamp:1.0" ++ term]) ∧
    (tcp_classify_batch (PS "tcp") (PS "127.0.0.1") (PS "5000") (PS "2.0")
        [PS "hello"]
      = some [sampleEnc (PS "tcp") (PS "127.0.0.1") (PS "5000") (PS "hello") (PS "2.0")]) :=
  ⟨by
    have h := (claim_C3_tcp_batch_classification (PS "tcp") (PS "127.0.0.1")
      (PS "5000") (PS "2.0")
      (PS "sample_type:t;patient_id:p;device_id:d;sample:s;timestamp:1.0") []).1
      (by decide) (by decide)
    simpa using h,
   by
    have h := (claim_C3_tcp_batch_classification (PS "tcp") (PS "127.0.0.1")
      (PS "5000") (PS "2.0") (PS "hello") []).2
      (by decide) (by decide) (by decide) (by decide) (by decide) (by decide)
      (by decide) (by decide) (by decide)
    simpa using h⟩

/-! ### Claim C7: TCP framing

PimapSenseTcp._sense_worker accumulates received bytes; after each read it
checks "if terminator in received", splits the accumulated text on ";;",
pushes all complete parts (received_split[:-1]) and carries the trailing
fragment (received_split[-1]) into the next read. -/

/-- Prepend a character to the first fragment of a split result. -/
def consHead (c : Char) : List PStr → List PStr
  | [] => [[c]]
  | h :: t => (c :: h) :: t

/-- Python str.split(";;"): split on non overlapping occurrences of the two
character terminator, scanning left to right. -/
def splitOnTerm : PStr → List PStr
  | [] => [[]]
  | [c] => [[c]]
  | c1 :: c2 :: rest =>
    if c1 = ';' ∧ c2 = ';' then [] :: splitOnTerm rest
    else consHead c1 (splitOnTerm (c2 :: rest))

/-- All fragments but the last: received_split[:-1]. -/
def splitInit : List PStr → List PStr
  | [] => []
  | [_] => []
  | x :: y :: t => x :: splitInit (y :: t)

/-- The last fragment: received_split[-1]. -/
def splitLast : List PStr → PStr
  | [] => []
  | [x] => x
  | _ :: y :: t => splitLast (y :: t)

/-- One iteration of the accumulate/flush loop of _sense_worker: append the
newly read chunk to the carried text; if the terminator occurs anywhere in
the window, split, push the complete records and carry the trailing
fragment; otherwise push nothing and carry everything. -/
def frame_window (received chunk : PStr) : PStr × Option (List PStr) :=
  if term <:+: received ++ chunk then
    (splitLast (splitOnTerm (received ++ chunk)),
      some (splitInit (splitOnTerm (received ++ chunk))))
  else (received ++ chunk, none)

/-- Rejoin fragments with the terminator between consecutive fragments. -/
def joinFrags : List PStr → PStr
  | [] => []
  | [x] => x
  | x :: y :: t => x ++ term ++ joinFrags (y :: t)

theorem splitOnTermNeNil : ∀ s : PStr, splitOnTerm s ≠ [] := by
  intro s
  induction s using splitOnTerm.induct with
  | case1 => exact List.cons_ne_nil _ _
  | case2 c => exact List.cons_ne_nil _ _
  | case3 c1 c2 rest hcond ih => rw [splitOnTerm, if_pos hcond]; exact List.cons_ne_nil _ _
  | case4 c1 c2 rest hcond ih =>
    rw [splitOnTerm, if_neg hcond]
    cases hsp : splitOnTerm (c2 :: rest) with
    | nil => exact absurd hsp ih
    | cons h t => rw [consHead]; exact List.cons_ne_nil _ _

theorem joinConsHead (c : Char) (parts : List PStr) :
    joinFrags (consHead c parts) = c :: joinFrags parts := by
  cases parts with
  | nil => rfl
  | cons h t =>
    cases t with
    | nil => rfl
    | cons y t2 => rfl

theorem splitInitLastAppend : ∀ parts : List PStr, parts ≠ [] →
    splitInit parts ++ [splitLast parts] = parts := by
  intro parts
  induction parts with
  | nil => intro h; exact absurd rfl h
  | cons a t ih =>
    intro _
    cases t with
    | nil => rfl
    | cons b t2 =>
      rw [splitInit, splitLast, List.cons_append, ih (List.cons_ne_nil b t2)]

/-- Splitting on the terminator and rejoining reproduces the text: the
framing loses no bytes. -/
theorem joinSplitOnTerm : ∀ s : PStr, joinFrags (splitOnTerm s) = s := by
  intro s
  induction s using splitOnTerm.induct with
  | case1 => rfl
  | case2 c => rfl
  | case3 c1 c2 rest hcond ih =>
    rw [splitOnTerm, if_pos hcond]
    obtain ⟨rfl, rfl⟩ := hcond
    cases hsp : splitOnTerm rest with
    | nil => exact absurd hsp (splitOnTermNeNil rest)
    | cons h t =>
      rw [hsp] at ih
      rw [joinFrags, ih]
      rfl
  | case4 c1 c2 rest hcond ih =>
    rw [splitOnTerm, if_neg hcond, joinConsHead, ih]

/-- The carried trailing fragment never contains the terminator. -/
theorem splitLastNoTerm : ∀ s : PStr, ¬ term <:+: splitLast (splitOnTerm s) := by
  intro s
  induction s using splitOnTerm.induct with
  | case1 =>
    intro h
    rw [show splitLast (splitOnTerm []) = [] from rfl, List.infix_nil] at h
    cases h
  | case2 c =>
    intro h
    have hlen := h.length_le
    simp [term, show splitLast (splitOnTerm [c]) = [c] from rfl] at hlen
  | case3 c1 c2 rest hcond ih =>
    rw [splitOnTerm, if_pos hcond]
    cases hsp : splitOnTerm rest with
    | nil => exact absurd hsp (splitOnTermNeNil rest)
    | cons h t =>
      rw [hsp] at ih
      rw [splitLast]
      exact ih
  | case4 c1 c2 rest hcond ih =>
    rw [splitOnTerm, if_neg hcond]
    cases hsp : splitOnTerm (c2 :: rest) with
    | nil => exact absurd hsp (splitOnTermNeNil (c2 :: rest))
    | cons h t =>
      rw [hsp] at ih
      cases t with
      | cons y t2 =>
        rw [consHead, splitLast]
        rw [splitLast] at ih
        exact ih
      | nil =>
        rw [consHead, splitLast]
        have hh : h = c2 :: rest := by
          have hj := joinSplitOnTerm (c2 :: rest)
          rw [hsp] at hj
          exact hj
        intro hterm
        rw [List.infix_cons_iff] at hterm
        rcases hterm with hterm | hterm
        · rw [term, List.cons_prefix_cons] at hterm
          obtain ⟨hc1, hterm2⟩ := hterm
          rw [hh, List.cons_prefix_cons] at hterm2
          obtain ⟨hc2, _⟩ := hterm2
          exact hcond ⟨hc1.symm, hc2.symm⟩
        · rw [show splitLast [h] = h from rfl] at ih
          exact ih hterm

/-- C7 (amended).  TCP framing: the accept worker pushes a batch exactly
when at least ONE ";;" terminator occurs in the current read window (not
two); the batch holds the complete terminated records, the trailing partial
fragment is carried to the next read, the carried fragment never contains a
terminator, and rejoining the pushed records (with their terminators) and
the carry reproduces the window byte for byte. -/
theorem claim_C7_tcp_framing (received chunk : PStr) :
    ((frame_window received chunk).2.isSome ↔ term <:+: received ++ chunk) ∧
    (∀ batch, (frame_window received chunk).2 = some batch →
      joinFrags (batch ++ [(frame_window received chunk).1]) = received ++ chunk ∧
      ¬ term <:+: (frame_window received chunk).1) := by
  constructor
  · constructor
    · intro h
      by_cases ht : term <:+: received ++ chunk
      · exact ht
      · rw [frame_window, if_neg ht] at h
        simp at h
    · intro ht
      rw [frame_window, if_pos ht]
      rfl
  · intro batch hb
    by_cases ht : term <:+: received ++ chunk
    · rw [frame_window, if_pos ht] at hb ⊢
      have hbatch := Option.some.inj hb
      refine ⟨?_, splitLastNoTerm (received ++ chunk)⟩
      rw [← hbatch,
        splitInitLastAppend _ (splitOnTermNeNil (received ++ chunk))]
      exact joinSplitOnTerm (received ++ chunk)
    · rw [frame_window, if_neg ht] at hb
      cases hb

/-- C7, counterexample to the claim as stated.  A read window holding
exactly ONE terminator (the split produces two fragments, so the
non overlapping occurrence count is length - 1 = 1) already triggers a
push of the complete record: the worker does not wait for two terminators. -/
theorem claim_C7_counterexample :
    frame_window [] (PS "a;;") = ([], some [PS "a"]) ∧
    (splitOnTerm (PS "a;;")).length - 1 = 1 ∧
    ¬ 2 ≤ (splitOnTerm (PS "a;;")).length - 1 := by
  decide

/-- Witness for C7: the framing facts applied to a concrete window with two
complete records and a partial fragment. -/
theorem claim_C7_tcp_framing_witness :
    joinFrags ([PS "a", PS "b"] ++ [(frame_window [] (PS "a;;b;;c")).1])
      = [] ++ PS "a;;b;;c" ∧
    ¬ term <:+: (frame_window [] (PS "a;;b;;c")).1 :=
  (claim_C7_tcp_framing [] (PS "a;;b;;c")).2 [PS "a", PS "b"] (by decide)

/-! ### Claim C4: analyze() input contract

PimapAnalyzeObjectiveMobility.analyze first raises TypeError for a non
list argument, then raises ValueError when the list is non empty and no
entry validates, and then runs
filter(lambda x: pu.get_type(x) == "pressure_bandage", pimap_samples) —
whose per element get_type call raises ValueError for any entry without a
type fragment, even when other entries validate. -/

/-- The two Python exception kinds relevant to the analyze entry point. -/
inductive PyErr where
  | typeError
  | valueError
deriving DecidableEq

/-- A Python argument that is either a list of strings or something else. -/
inductive PyArg where
  | list (xs : List PStr)
  | nonList

/-- The filter step of analyze: keep entries whose get_type equals
"pressure_bandage"; a get_type failure raises (left to right). -/
def filterPressureBandage : List PStr → Except PyErr (List PStr)
  | [] => .ok []
  | x :: rest =>
    match get_type x with
    | none => .error .valueError
    | some t =>
      match filterPressureBandage rest with
      | .error e => .error e
      | .ok r => if t = PS "pressure_bandage" then .ok (x :: r) else .ok r

/-- The argument validation and filtering prefix of analyze (lines 119-130
of pimapanalyzeobjectivemobility.py): the returned list is what analyze
appends to its aggregation buffer. -/
def analyze_arg_check (arg : PyArg) : Except PyErr (List PStr) :=
  match arg with
  | .nonList => .error .typeError
  | .list xs =>
    if xs.any (fun x => validate_datum x) = false ∧ xs ≠ [] then
      .error .valueError
    else filterPressureBandage xs

theorem filterPressureBandageOk :
    ∀ xs : List PStr, (∀ x ∈ xs, (get_type x).isSome) →
      filterPressureBandage xs
        = .ok (xs.filter (fun x => decide (get_type x = some (PS "pressure_bandage")))) := by
  intro xs
  induction xs with
  | nil => intro _; rfl
  | cons x rest ih =>
    intro h
    have hx := h x (List.mem_cons_self x rest)
    cases hgt : get_type x with
    | none => rw [hgt] at hx; cases hx
    | some t =>
      rw [filterPressureBandage, hgt,
        ih fun y hy => h y (List.mem_cons_of_mem x hy), List.filter_cons]
      by_cases ht : t = PS "pressure_bandage"
      · simp [hgt, ht]
      · simp [hgt, ht]

theorem filterPressureBandageErr :
    ∀ xs : List PStr, (∃ x ∈ xs, get_type x = none) →
      filterPressureBandage xs = .error .valueError := by
  intro xs
  induction xs with
  | nil =>
    intro h
    obtain ⟨x, hx, _⟩ := h
    cases hx
  | cons x rest ih =>
    intro h
    cases hgt : get_type x with
    | none => rw [filterPressureBandage, hgt]
    | some t =>
      obtain ⟨y, hy, hgy⟩ := h
      rcases List.mem_cons.1 hy with rfl | hy
      · rw [hgt] at hgy
        cases hgy
      · rw [filterPressureBandage, hgt, ih ⟨y, hy, hgy⟩]

/-- C4 (amended).  analyze raises TypeError for every non list argument;
it raises ValueError when the list is non empty and no entry validates,
and ALSO when at least one entry validates but some entry has no type
fragment (get_type raises inside the filter); in the remaining cases —
empty list, or some entry validates and every entry has a type fragment —
it does not raise and produces the input filtered to entries of type
pressure_bandage, which analyze appends to its aggregation buffer. -/
theorem claim_C4_analyze_input_contract :
    (analyze_arg_check .nonList = .error .typeError) ∧
    (analyze_arg_check (.list []) = .ok []) ∧
    (∀ xs : List PStr, xs ≠ [] → (∀ x ∈ xs, validate_datum x = false) →
      analyze_arg_check (.list xs) = .error .valueError) ∧
    (∀ xs : List PStr, (∃ x ∈ xs, validate_datum x = true) →
      (∀ x ∈ xs, (get_type x).isSome) →
      analyze_arg_check (.list xs)
        = .ok (xs.filter (fun x => decide (get_type x = some (PS "pressure_bandage"))))) ∧
    (∀ xs : List PStr, (∃ x ∈ xs, validate_datum x = true) →
      (∃ x ∈ xs, get_type x = none) →
      analyze_arg_check (.list xs) = .error .valueError) := by
  refine ⟨rfl, rfl, ?_, ?_, ?_⟩
  · intro xs hne hall
    rw [analyze_arg_check, if_pos]
    exact ⟨List.any_eq_false.2 fun x hx => by simp [hall x hx], hne⟩
  · intro xs hex hall
    rw [analyze_arg_check, if_neg]
    · exact filterPressureBandageOk xs hall
    · intro hcond
      obtain ⟨x, hx, hv⟩ := hex
      exact (List.any_eq_false.1 hcond.1 x hx) hv
  · intro xs hex hfail
    rw [analyze_arg_check, if_neg]
    · exact filterPressureBandageErr xs hfail
    · intro hcond
      obtain ⟨x, hx, hv⟩ := hex
      exact (List.any_eq_false.1 hcond.1 x hx) hv

/-- C4, counterexample to the claim as stated.  A two element list whose
first entry validates still raises ValueError: the second entry "garbage"
has no type fragment, so get_type raises inside the pressure_bandage
filter, although the claim asserts no raise whenever at least one entry
validates. -/
theorem claim_C4_counterexample :
    validate_datum
        (PS "sample_type:t;patient_id:p;device_id:d;sample:s;timestamp:1.0;;")
      = true ∧
    analyze_arg_check (.list
        [PS "sample_type:t;patient_id:p;device_id:d;sample:s;timestamp:1.0;;",
         PS "garbage"])
      = .error .valueError := by
  constructor
  · decide
  · rfl

/-- Witness for C4: the amended contract applied to concrete lists. -/
theorem claim_C4_analyze_input_contract_witness :
    analyze_arg_check (.list
        [PS "sample_type:pressure_bandage;patient_id:p;device_id:d;sample:s;timestamp:1.0;;",
         PS "sample_type:other;patient_id:p;device_id:d;sample:s;timestamp:1.0;;"])
      = .ok ([PS "sample_type:pressure_bandage;patient_id:p;device_id:d;sample:s;timestamp:1.0;;",
          PS "sample_type:other;patient_id:p;device_id:d;sample:s;timestamp:1.0;;"].filter
            (fun x => decide (get_type x = some (PS "pressure_bandage")))) ∧
    analyze_arg_check (.list [PS "nonsense", PS "invalid_data"])
      = .error .valueError :=
  ⟨(claim_C4_analyze_input_contract.2.2.2.1)
      [PS "sample_type:pressure_bandage;patient_id:p;device_id:d;sample:s;timestamp:1.0;;",
       PS "sample_type:other;patient_id:p;device_id:d;sample:s;timestamp:1.0;;"]
      ⟨PS "sample_type:pressure_bandage;patient_id:p;device_id:d;sample:s;timestamp:1.0;;",
        List.mem_cons_self _ _, by decide⟩
      (by decide),
   (claim_C4_analyze_input_contract.2.2.1)
      [PS "nonsense", PS "invalid_data"] (by decide) (by decide)⟩

/-! ### Claim C5: plane fit of the Objective Mobility analysis

PimapAnalyzeObjectiveMobility normalizes the 4x4 pressure grid by
max_pressure, forms three centroids from fixed cell subsets (grid positions
divided by 3), fits the plane through them via the cross product of the two
edge vectors from centroid 0, and converts the normal (a, b, c) into
x_angle = degrees(arctan(-a/c)) and y_angle = degrees(arctan(-b/c)).
Pressure values are modelled as rationals (the Python floats only undergo
ratios of small integers here) and degrees(v) = 360 * v / (2 * pi). -/

/-- Centroid 0 cell x indices (source: np.array([0, 1, 2, 3, 2, 3])). -/
def c0_xlocs : List ℕ := [0, 1, 2, 3, 2, 3]

def c0_ylocs : List ℕ := [0, 0, 0, 0, 1, 2]

def c1_xlocs : List ℕ := [0, 0, 1, 0, 1]

def c1_ylocs : List ℕ := [1, 2, 2, 3, 3]

def c2_xlocs : List ℕ := [3, 2, 3, 2, 3, 2]

def c2_ylocs : List ℕ := [1, 2, 2, 3, 3, 1]

/-- np.mean of a list of rationals. -/
def listMean (l : List ℚ) : ℚ := l.sum / l.length

/-- np.mean(locs / 3.0): the mean of the normalized grid positions. -/
def locsMean (l : List ℕ) : ℚ := listMean (l.map (fun v => (v : ℚ) / 3))

def c0_mean_x : ℚ := locsMean c0_xlocs

def c0_mean_y : ℚ := locsMean c0_ylocs

def c1_mean_x : ℚ := locsMean c1_xlocs

def c1_mean_y : ℚ := locsMean c1_ylocs

def c2_mean_x : ℚ := locsMean c2_xlocs

def c2_mean_y : ℚ := locsMean c2_ylocs

/-- np.mean(grid[ylocs, xlocs]): the mean pressure over a centroid's cells
(grid is indexed row = y, column = x). -/
def centroidPressure (grid : ℕ → ℕ → ℚ) (xl yl : List ℕ) : ℚ :=
  listMean ((xl.zip yl).map (fun pr => grid pr.2 pr.1))

/-- The plane normal n = cross(c1 - c0, c2 - c0) computed by the flush step
on one (max_pressure normalized) grid; the components are (a, b, c). -/
def planeNormal (max_pressure : ℚ) (grid : ℕ → ℕ → ℚ) : ℚ × ℚ × ℚ :=
  let ng : ℕ → ℕ → ℚ := fun y x => grid y x / max_pressure
  let v0x := c1_mean_x - c0_mean_x
  let v0y := c1_mean_y - c0_mean_y
  let v0z := centroidPressure ng c1_xlocs c1_ylocs -
    centroidPressure ng c0_xlocs c0_ylocs
  let v1x := c2_mean_x - c0_mean_x
  let v1y := c2_mean_y - c0_mean_y
  let v1z := centroidPressure ng c2_xlocs c2_ylocs -
    centroidPressure ng c0_xlocs c0_ylocs
  (v0y * v1z - v0z * v1y, v0z * v1x - v0x * v1z, v0x * v1y - v0y * v1x)

theorem planeNormalFlat (p maxp : ℚ) :
    planeNormal maxp (fun _ _ => p) = (0, 0, -(197 / 540)) := by
  simp only [planeNormal, centroidPressure, listMean, c0_mean_x, c0_mean_y,
    c1_mean_x, c1_mean_y, c2_mean_x, c2_mean_y, locsMean, c0_xlocs, c0_ylocs,
    c1_xlocs, c1_ylocs, c2_xlocs, c2_ylocs, List.zip, List.zipWith, List.map,
    List.sum_cons, List.sum_nil, List.length, Prod.mk.injEq]
  norm_num
  ring

theorem planeNormalRamp :
    planeNormal 3 (fun _ x => (x : ℚ)) = (197 / 540, 0, -(197 / 540)) := by
  simp only [planeNormal, centroidPressure, listMean, c0_mean_x, c0_mean_y,
    c1_mean_x, c1_mean_y, c2_mean_x, c2_mean_y, locsMean, c0_xlocs, c0_ylocs,
    c1_xlocs, c1_ylocs, c2_xlocs, c2_ylocs, List.zip, List.zipWith, List.map,
    List.sum_cons, List.sum_nil, List.length, Prod.mk.injEq]
  norm_num

/-- C5.  Plane fit correctness: a uniform grid yields x_angle = 0 and
y_angle = 0 (for any pressure level and any non zero max_pressure), and
the grid whose pressure rises by 1 per column with max_pressure = 3 yields
x_angle = 45 degrees and y_angle = 0 degrees. -/
theorem claim_C5_plane_fit :
    (∀ p maxp : ℚ, maxp ≠ 0 →
      360 * Real.arctan (-(((planeNormal maxp (fun _ _ => p)).1 : ℝ)) /
          ((planeNormal maxp (fun _ _ => p)).2.2 : ℝ)) / (2 * Real.pi) = 0 ∧
      360 * Real.arctan (-(((planeNormal maxp (fun _ _ => p)).2.1 : ℝ)) /
          ((planeNormal maxp (fun _ _ => p)).2.2 : ℝ)) / (2 * Real.pi) = 0) ∧
    (360 * Real.arctan (-(((planeNormal 3 (fun _ x => (x : ℚ))).1 : ℝ)) /
        ((planeNormal 3 (fun _ x => (x : ℚ))).2.2 : ℝ)) / (2 * Real.pi) = 45 ∧
     360 * Real.arctan (-(((planeNormal 3 (fun _ x => (x : ℚ))).2.1 : ℝ)) /
        ((planeNormal 3 (fun _ x => (x : ℚ))).2.2 : ℝ)) / (2 * Real.pi) = 0) := by
  constructor
  · intro p maxp _
    rw [planeNormalFlat p maxp]
    constructor
    · norm_num [Real.arctan_zero]
    · norm_num [Real.arctan_zero]
  · constructor
    · have hn : (((planeNormal 3 (fun _ x => (x : ℚ))).1 : ℝ)) = 197 / 540 := by
        rw [planeNormalRamp]
        norm_num
      have hc : (((planeNormal 3 (fun _ x => (x : ℚ))).2.2 : ℝ)) = -(197 / 540) := by
        rw [planeNormalRamp]
        push_cast
        norm_num
      have hdiv : (-(197 / 540 : ℝ)) / (-(197 / 540 : ℝ)) = 1 := by norm_num
      rw [hn, hc, hdiv, Real.arctan_one]
      have hpi := Real.pi_ne_zero
      field_simp
      ring
    · have hb : (((planeNormal 3 (fun _ x => (x : ℚ))).2.1 : ℝ)) = 0 := by
        rw [planeNormalRamp]
        norm_num
      rw [hb]
      norm_num [Real.arctan_zero]

/-- Witness for C5: the flat grid conclusion at pressure 7 and the default
max_pressure 100. -/
theorem claim_C5_plane_fit_witness :
    (100 : ℚ) ≠ 0 ∧
    (360 * Real.arctan (-(((planeNormal 100 (fun _ _ => (7 : ℚ))).1 : ℝ)) /
        ((planeNormal 100 (fun _ _ => (7 : ℚ))).2.2 : ℝ)) / (2 * Real.pi) = 0 ∧
     360 * Real.arctan (-(((planeNormal 100 (fun _ _ => (7 : ℚ))).2.1 : ℝ)) /
        ((planeNormal 100 (fun _ _ => (7 : ℚ))).2.2 : ℝ)) / (2 * Real.pi) = 0) :=
  ⟨by norm_num, claim_C5_plane_fit.1 7 100 (by norm_num)⟩

/-! ### Claim C6: adaptive aggregation threshold of the Analyze Engine

Lines 251-256 of pimapanalyzeobjectivemobility.py, after a flush:
if time_to_analyze > analyze_period, aggregation_limit /= 2; elif
len(aggregation_buffer) >= aggregation_limit, aggregation_limit +=
len(aggregation_buffer).  There is no lower clamp on the halving. -/

/-- One update of aggregation_limit at the end of a flush.  bufLen is the
length of the (fully consumed) aggregation buffer. -/
def aggregation_limit_update (limit time_to_analyze analyze_period : ℚ)
    (bufLen : ℕ) : ℚ :=
  if analyze_period < time_to_analyze then limit / 2
  else if limit ≤ (bufLen : ℚ) then limit + (bufLen : ℚ)
  else limit

/-- The limit after n consecutive over budget flushes (empty buffer at
update time, time_to_analyze = 1 second against the 0.05 second budget),
starting from the constructor value 100. -/
def overBudgetLimit (n : ℕ) : ℚ :=
  (fun lim => aggregation_limit_update lim 1 (1 / 20) 0)^[n] 100

theorem overBudgetLimitEq : ∀ n : ℕ, overBudgetLimit n = 100 / 2 ^ n := by
  intro n
  induction n with
  | zero => norm_num [overBudgetLimit]
  | succ n ih =>
    rw [overBudgetLimit, Function.iterate_succ_apply']
    rw [overBudgetLimit] at ih
    rw [ih, aggregation_limit_update, if_pos (by norm_num)]
    rw [pow_succ]
    ring

/-- C6 (amended).  The update rule: an over budget flush halves the limit;
an under budget flush with the consumed buffer at or above the limit grows
it by the consumed amount.  Under consistently over budget flushes the
limit strictly decreases while staying positive, but it has NO positive
lower bound: it eventually falls below every positive value.  Under
consistently saturated under budget flushes it strictly increases. -/
theorem claim_C6_adaptive_threshold :
    (∀ (lim t P : ℚ) (bufLen : ℕ), P < t →
      aggregation_limit_update lim t P bufLen = lim / 2) ∧
    (∀ (lim t P : ℚ) (bufLen : ℕ), ¬ P < t → lim ≤ (bufLen : ℚ) →
      aggregation_limit_update lim t P bufLen = lim + (bufLen : ℚ)) ∧
    (∀ (lim t P : ℚ) (bufLen : ℕ), 0 < lim → P < t →
      aggregation_limit_update lim t P bufLen < lim ∧
      0 < aggregation_limit_update lim t P bufLen) ∧
    (∀ (lim t P : ℚ) (bufLen : ℕ), ¬ P < t → lim ≤ (bufLen : ℚ) →
      1 ≤ bufLen → lim < aggregation_limit_update lim t P bufLen) ∧
    (∀ ε : ℚ, 0 < ε → ∃ n : ℕ, overBudgetLimit n < ε) := by
  refine ⟨?_, ?_, ?_, ?_, ?_⟩
  · intro lim t P bufLen h
    rw [aggregation_limit_update, if_pos h]
  · intro lim t P bufLen h1 h2
    rw [aggregation_limit_update, if_neg h1, if_pos h2]
  · intro lim t P bufLen hpos h
    rw [aggregation_limit_update, if_pos h]
    constructor
    · linarith
    · positivity
  · intro lim t P bufLen h1 h2 h3
    rw [aggregation_limit_update, if_neg h1, if_pos h2]
    have : (1 : ℚ) ≤ (bufLen : ℚ) := by exact_mod_cast h3
    linarith
  · intro ε hε
    obtain ⟨n, hn⟩ := pow_unbounded_of_one_lt (100 / ε)
      (by norm_num : (1 : ℚ) < 2)
    refine ⟨n, ?_⟩
    rw [overBudgetLimitEq, div_lt_iff₀ (by positivity)]
    rw [div_lt_iff₀ hε] at hn
    linarith

/-- C6, counterexample to the claim as stated.  Eight consecutive over
budget flushes push the threshold below 1 — below any sane minimum batch
size (a threshold under one sample no longer acts as a size threshold) —
and the ninth halving decreases it further: the halving has no lower
clamp. -/
theorem claim_C6_counterexample :
    overBudgetLimit 8 < 1 ∧ overBudgetLimit 9 < overBudgetLimit 8 := by
  rw [overBudgetLimitEq, overBudgetLimitEq]
  norm_num

/-- Witness for C6: the rule and monotonicity facts at concrete inputs. -/
theorem claim_C6_adaptive_threshold_witness :
    ((1 : ℚ) / 20 < 1) ∧
    aggregation_limit_update 100 1 (1 / 20) 0 = 100 / 2 ∧
    aggregation_limit_update 100 (1 / 100) (1 / 20) 150 = 100 + 150 ∧
    (aggregation_limit_update 100 1 (1 / 20) 0 < 100 ∧
      0 < aggregation_limit_update 100 1 (1 / 20) 0) ∧
    100 < aggregation_limit_update 100 (1 / 100) (1 / 20) 150 ∧
    ∃ n : ℕ, overBudgetLimit n < 1 / 1000 :=
  ⟨by norm_num,
   claim_C6_adaptive_threshold.1 100 1 (1 / 20) 0 (by norm_num),
   by
     have h := claim_C6_adaptive_threshold.2.1 100 (1 / 100) (1 / 20) 150
       (by norm_num) (by norm_num)
     rw [h]
     norm_num,
   claim_C6_adaptive_threshold.2.2.1 100 1 (1 / 20) 0 (by norm_num) (by norm_num),
   by
     have h := claim_C6_adaptive_threshold.2.2.2.1 100 (1 / 100) (1 / 20) 150
       (by norm_num) (by norm_num) (by norm_num)
     exact h,
   claim_C6_adaptive_threshold.2.2.2.2 (1 / 1000) (by norm_num)⟩

/-! ### Claim C8: adaptive poll size of PimapStoreKafka.retrieve

Lines 124-132 of pimapstorekafka.py: if the poll returned zero messages,
num_messages = int(num_messages / 2); elif it returned at least
num_messages, num_messages *= 2; then clamp below at 1 and above at
1000000.  num_messages starts at 100 and is an integer throughout (the
int() truncation of a positive float halving is floor division). -/

/-- One retrieve() adjustment of num_messages given the poll result size. -/
def num_messages_update (num msgs : ℕ) : ℕ :=
  let adjusted := if msgs = 0 then num / 2
    else if num ≤ msgs then num * 2
    else num
  if adjusted < 1 then 1
  else if 1000000 < adjusted then 1000000
  else adjusted

/-- num_messages after a sequence of retrieve() calls whose polls returned
the given message counts, from the initial value 100. -/
def num_messages_after (polls : List ℕ) : ℕ :=
  polls.foldl num_messages_update 100

theorem num_messages_update_mem (num msgs : ℕ) :
    1 ≤ num_messages_update num msgs ∧ num_messages_update num msgs ≤ 1000000 := by
  rw [num_messages_update]
  split_ifs <;> omega

/-- C8.  Adaptive poll size invariant: a zero message poll halves
num_messages (floor halving), a saturated poll doubles it, and after every
adjustment num_messages lies in [1, 1000000]; the invariant holds after
every retrieve() call starting from the initial value 100. -/
theorem claim_C8_adaptive_poll_size :
    (∀ polls : List ℕ, 1 ≤ num_messages_after polls ∧
      num_messages_after polls ≤ 1000000) ∧
    (∀ num msgs : ℕ, 1 ≤ num_messages_update num msgs ∧
      num_messages_update num msgs ≤ 1000000) ∧
    (∀ num : ℕ, 2 ≤ num → num ≤ 1000000 →
      num_messages_update num 0 = num / 2) ∧
    (∀ num msgs : ℕ, 1 ≤ num → num ≤ 500000 → num ≤ msgs →
      num_messages_update num msgs = 2 * num) := by
  have hmem := num_messages_update_mem
  refine ⟨?_, hmem, ?_, ?_⟩
  · intro polls
    rw [num_messages_after]
    have haux : ∀ (l : List ℕ) (init : ℕ), 1 ≤ init → init ≤ 1000000 →
        1 ≤ l.foldl num_messages_update init ∧
        l.foldl num_messages_update init ≤ 1000000 := by
      intro l
      induction l with
      | nil => intro init h1 h2; exact ⟨h1, h2⟩
      | cons a t ih =>
        intro init _ _
        rw [List.foldl_cons]
        exact ih _ (hmem init a).1 (hmem init a).2
    exact haux polls 100 (by norm_num) (by norm_num)
  · intro num h1 h2
    rw [num_messages_update]
    split_ifs <;> omega
  · intro num msgs h1 h2 h3
    rw [num_messages_update]
    split_ifs <;> omega

/-- Witness for C8: the halving, doubling and clamping behaviour along a
concrete call sequence (saturated, saturated, timeout, timeout), and the
clamp at work from value 1. -/
theorem claim_C8_adaptive_poll_size_witness :
    (1 ≤ num_messages_after [100, 200, 0, 0] ∧
      num_messages_after [100, 200, 0, 0] ≤ 1000000) ∧
    num_messages_update 100 0 = 50 ∧
    num_messages_update 100 100 = 200 ∧
    num_messages_update 1 0 = 1 ∧
    num_messages_update 800000 800000 = 1000000 :=
  ⟨claim_C8_adaptive_poll_size.1 [100, 200, 0, 0],
   by
     have h := claim_C8_adaptive_poll_size.2.2.1 100 (by norm_num) (by norm_num)
     rw [h],
   by
     have h := claim_C8_adaptive_poll_size.2.2.2 100 100 (by norm_num)
       (by norm_num) (by norm_num)
     rw [h],
   by decide,
   by decide⟩

/-! ### Claim C9: the samples_in telemetry counter of the Analyze Engine

Line 265 of pimapanalyzeobjectivemobility.py 'self.samples_in +=
len(self.aggregation_buffer)' executes AFTER the flush block, which ends by
clearing the buffer (line 261).  So on a flushing call the counter gains
zero no matter how many samples arrived, and on a non flushing call it
gains the whole pending buffer — including samples already counted by
earlier calls. -/

/-- One analyze() call as it affects (buffer length, samples_in): the
new filtered samples join the buffer, a flush empties it, and then the
source adds the POST flush buffer length to samples_in. -/
def analyze_samples_in_step (buffer_len samples_in new_filtered : ℕ)
    (flush : Bool) : ℕ × ℕ :=
  let buf := buffer_len + new_filtered
  let buf2 := if flush then 0 else buf
  (buf2, samples_in + buf2)

/-- C9: evaluation of the samples_in accounting at the failing inputs.
One flushing call that received 1 sample leaves samples_in at 0 (the
sample is never counted), and two non flushing calls receiving 3 and 2
samples leave samples_in at 8, double counting the first three — neither
equals the number of samples received, so throughput_in does not report
(samples received in the period) / elapsed. -/
theorem claim_C9_samples_in_accounting :
    (analyze_samples_in_step 0 0 1 true).2 = 0 ∧
    (analyze_samples_in_step (analyze_samples_in_step 0 0 3 false).1
        (analyze_samples_in_step 0 0 3 false).2 2 false).2 = 8 ∧
    (0 : ℕ) ≠ 1 ∧ (8 : ℕ) ≠ 3 + 2 := by
  decide

end Pimap
